import Mathlib

/-!
# Group chat service: message/session backend

A shallow embedding of `src/backend/server.js`: the three tables of the SQLite
store, the SQL statements the handlers issue, and the seven HTTP handlers,
written as pure functions from a store state to a response, a new store state
and the trace of store calls that were made; and of `sendMessage` in
`src/frontend/src/components/ChatInterface.jsx`, written as a step before and a
step after its `await` on the component's state.

Conventions of the embedding

* A table is the list of its rows in rowid order (the order of a full scan).
  A store whose tables have not been created yet is identified with the store
  whose tables are empty, so `CREATE TABLE IF NOT EXISTS` leaves a `Db` as it is.
* `AUTOINCREMENT` picks one more than the larger of the table's sequence
  counter and the largest rowid present. A row skipped by `INSERT OR IGNORE`
  still raises the counter to its rowid; a statement that fails does not.
* `ORDER BY` is SQLite's sorter: a stable sort of the scanned rows, so rows with
  equal keys stay in scan (rowid) order.
* Every store call of a handler may fail for a reason outside the handler
  (I/O error, locked file, ...); such a failure is an input, `Env.fault1` for the
  first call of the request and `Env.fault2` for the second, carrying the error
  message. A failed call changes nothing.
* The libraries (validator.js, bcryptjs, jsonwebtoken) and the module
  `./middleware/auth`, which is not among the sources, are inputs, gathered in
  `Lib`.
* Request fields are strings when present; absent fields are `none`.
-/

namespace Chat

/-! ## JSON values and responses -/

/-- JSON values as handed to `res.json`; `undefined` stands for the JavaScript
value of that name (a row that was not found). -/
inductive Json where
  | undefined : Json
  | null : Json
  | bool (b : Bool) : Json
  | num (n : Int) : Json
  | str (s : String) : Json
  | arr (items : List Json) : Json
  | obj (fields : List (String × Json)) : Json

/-- The names of the fields of a JSON object, in order (empty for other values). -/
def Json.keys : Json → List String
  | .obj fields => fields.map Prod.fst
  | _ => []

/-- Field lookup in a JSON object (`undefined` when absent, as in JavaScript). -/
def Json.get (j : Json) (key : String) : Json :=
  match j with
  | .obj fields =>
    match fields.find? (fun kv => kv.1 == key) with
    | some kv => kv.2
    | none => .undefined
  | _ => .undefined

/-- JSON of an optional string: `null` when absent. -/
def Json.ofOptStr : Option String → Json
  | some s => .str s
  | none => .null

/-- JSON of an optional number: `null` when absent. -/
def Json.ofOptNat : Option Nat → Json
  | some n => .num n
  | none => .null

/-- An HTTP response: status code and JSON body. -/
structure Response where
  status : Nat
  body : Json

/-! ## The store -/

/-- A value of the `group_id` column (INTEGER affinity): an integer, or a text
that does not look like a number. Route parameters are taken after this
conversion. -/
inductive SqlValue where
  | int (n : Int) : SqlValue
  | text (s : String) : SqlValue
  deriving DecidableEq, Repr

/-- JSON of a column value. -/
def SqlValue.toJson : SqlValue → Json
  | .int n => .num n
  | .text s => .str s

/-- A row of `users`. `username`, `email` and `password` are NOT NULL. -/
structure UserRow where
  id : Nat
  username : String
  email : String
  password : String
  avatar : Option String
  created_at : String
  deriving DecidableEq, Repr

/-- A row of `groups`. `name` is NOT NULL. -/
structure GroupRow where
  id : Nat
  name : String
  description : Option String
  avatar : Option String
  created_at : String
  deriving DecidableEq, Repr

/-- A row of `messages`. `message` is NOT NULL; `timestamp` is always filled,
by the statement or by its default. -/
structure MessageRow where
  id : Nat
  group_id : SqlValue
  user_id : Option Nat
  username : Option String
  message : String
  timestamp : String
  deriving DecidableEq, Repr

/-- The store: three tables and their AUTOINCREMENT counters. -/
structure Db where
  users : List UserRow
  groups : List GroupRow
  messages : List MessageRow
  usersSeq : Nat
  groupsSeq : Nat
  messagesSeq : Nat
  deriving DecidableEq, Repr

/-- The fresh store. -/
def Db.empty : Db := ⟨[], [], [], 0, 0, 0⟩

/-- The rowid AUTOINCREMENT assigns: one more than the larger of the counter
and the ids present. -/
def nextId (seq : Nat) (ids : List Nat) : Nat :=
  ids.foldl max seq + 1

/-- A store call as the handler sees it: the injected failure, if any, else the
result of the statement. -/
def withFault {α : Type} (fault : Option String) (result : Except String α) : Except String α :=
  match fault with
  | some e => .error e
  | none => result

/-- `INSERT INTO users (id?, username, email, password)`: NOT NULL on the three
text columns, then the primary key and the two UNIQUE columns. -/
def Db.insertUser (db : Db) (id : Option Nat) (username email password : Option String)
    (now : String) : Except String (Nat × Db) :=
  match username, email, password with
  | none, _, _ => .error "SQLITE_CONSTRAINT: NOT NULL constraint failed: users.username"
  | some _, none, _ => .error "SQLITE_CONSTRAINT: NOT NULL constraint failed: users.email"
  | some _, some _, none => .error "SQLITE_CONSTRAINT: NOT NULL constraint failed: users.password"
  | some u, some e, some p =>
    let newId := id.getD (nextId db.usersSeq (db.users.map (·.id)))
    if db.users.any (fun r => r.id == newId) then
      .error "SQLITE_CONSTRAINT: UNIQUE constraint failed: users.id"
    else if db.users.any (fun r => r.username == u) then
      .error "SQLITE_CONSTRAINT: UNIQUE constraint failed: users.username"
    else if db.users.any (fun r => r.email == e) then
      .error "SQLITE_CONSTRAINT: UNIQUE constraint failed: users.email"
    else
      let row : UserRow := ⟨newId, u, e, p, none, now⟩
      .ok (newId, { db with
        users := db.users.filter (fun r => r.id < newId) ++ row ::
          db.users.filter (fun r => newId < r.id)
        usersSeq := max db.usersSeq newId })

/-- `INSERT INTO groups (id?, name, description)`. -/
def Db.insertGroup (db : Db) (id : Option Nat) (name description : Option String)
    (now : String) : Except String (Nat × Db) :=
  match name with
  | none => .error "SQLITE_CONSTRAINT: NOT NULL constraint failed: groups.name"
  | some n =>
    let newId := id.getD (nextId db.groupsSeq (db.groups.map (·.id)))
    if db.groups.any (fun r => r.id == newId) then
      .error "SQLITE_CONSTRAINT: UNIQUE constraint failed: groups.id"
    else
      let row : GroupRow := ⟨newId, n, description, none, now⟩
      .ok (newId, { db with
        groups := db.groups.filter (fun r => r.id < newId) ++ row ::
          db.groups.filter (fun r => newId < r.id)
        groupsSeq := max db.groupsSeq newId })

/-- `INSERT INTO messages (group_id, user_id, username, message, timestamp?)`:
the id is always assigned by the store, the timestamp defaults to
CURRENT_TIMESTAMP. No foreign key is enforced (SQLite's default). -/
def Db.insertMessage (db : Db) (group_id : SqlValue) (user_id : Option Nat)
    (username message timestamp : Option String) (now : String) : Except String (Nat × Db) :=
  match message with
  | none => .error "SQLITE_CONSTRAINT: NOT NULL constraint failed: messages.message"
  | some m =>
    let newId := nextId db.messagesSeq (db.messages.map (·.id))
    let row : MessageRow := ⟨newId, group_id, user_id, username, m, timestamp.getD now⟩
    .ok (newId, { db with messages := db.messages ++ [row], messagesSeq := newId })

/-- The tables with an AUTOINCREMENT counter. -/
inductive Table where
  | users
  | groups
  | messages
  deriving DecidableEq, Repr

/-- The counter of a table raised to a rowid (it never goes down). -/
def Db.raiseSeq (db : Db) (table : Table) (rowid : Nat) : Db :=
  match table with
  | .users => { db with usersSeq := max db.usersSeq rowid }
  | .groups => { db with groupsSeq := max db.groupsSeq rowid }
  | .messages => { db with messagesSeq := max db.messagesSeq rowid }

/-- `INSERT OR IGNORE`: a row that violates a constraint is skipped. The
statement goes on to its end, where SQLite writes the counter back, so the
counter of the table is raised to the rowid of the skipped row all the same. -/
def orIgnore (db : Db) (table : Table) (rowid : Nat) (result : Except String (Nat × Db)) : Db :=
  match result with
  | .ok (_, db') => db'
  | .error _ => db.raiseSeq table rowid

/-- `SELECT * FROM users WHERE email = ? OR username = ?` (first row). -/
def Db.userByEmailOrUsername (db : Db) (email username : String) : Option UserRow :=
  db.users.find? (fun r => r.email == email || r.username == username)

/-- `SELECT * FROM users WHERE email = ?` (first row). -/
def Db.userByEmail (db : Db) (email : String) : Option UserRow :=
  db.users.find? (fun r => r.email == email)

/-- `SELECT id, username, email FROM users WHERE id = ?` (first row). -/
def Db.userById (db : Db) (id : Nat) : Option UserRow :=
  db.users.find? (fun r => r.id == id)

/-- `SELECT * FROM messages WHERE group_id = ? ORDER BY timestamp ASC`. -/
def Db.messagesByGroup (db : Db) (groupId : SqlValue) : List MessageRow :=
  (db.messages.filter (fun r => r.group_id == groupId)).insertionSort
    (fun a b => a.timestamp ≤ b.timestamp)

/-- `SELECT * FROM messages WHERE id = ?` (first row). -/
def Db.messageById (db : Db) (id : Nat) : Option MessageRow :=
  db.messages.find? (fun r => r.id == id)

/-- `SELECT * FROM groups WHERE id = ?` (first row); a text never equals an
INTEGER PRIMARY KEY. -/
def Db.groupById (db : Db) (groupId : SqlValue) : Option GroupRow :=
  db.groups.find? (fun r => SqlValue.int r.id == groupId)

/-- `SELECT * FROM groups ORDER BY created_at DESC`. -/
def Db.allGroups (db : Db) : List GroupRow :=
  db.groups.insertionSort (fun a b => b.created_at ≤ a.created_at)

/-! ## Startup: schema and sample data (`db.serialize`) -/

/-- `CREATE TABLE IF NOT EXISTS` for the three tables: nothing to do on a `Db`,
whose tables always exist. -/
def createTables (db : Db) : Db := db

/-- An entry of `sampleMessages`. -/
structure SampleMessage where
  group_id : Int
  user_id : Nat
  username : String
  message : String
  timestamp : String

/-- The six sample messages of the startup block. -/
def sampleMessages : List SampleMessage :=
  [ ⟨1, 1, "Anonymous", "Someone order Bornvita!!", "2020-08-20 11:35:00"⟩,
    ⟨1, 1, "Anonymous", "hahahahah!!", "2020-08-20 11:38:00"⟩,
    ⟨1, 1, "Anonymous", "I'm Excited For this Event! Ho-Ho", "2020-08-20 11:56:00"⟩,
    ⟨1, 1, "Anonymous", "Hello!", "2020-08-20 12:35:00"⟩,
    ⟨1, 1, "Anonymous", "Yessss!!!!!", "2020-08-20 12:42:00"⟩,
    ⟨1, 2, "Kirtidan Gadhvi", "We have Surprise For you!!", "2020-08-20 13:35:00"⟩ ]

/-- The prepared statement `insertMessage.run(...)` of the startup block:
`INSERT OR IGNORE INTO messages (group_id, user_id, username, message, timestamp)`. -/
def insertSample (now : String) (db : Db) (msg : SampleMessage) : Db :=
  orIgnore db .messages (nextId db.messagesSeq (db.messages.map (·.id)))
    (db.insertMessage (.int msg.group_id) (some msg.user_id) (some msg.username)
      (some msg.message) (some msg.timestamp) now)

/-- The startup block: create the tables, then `INSERT OR IGNORE` the default
group, the two sample users (given only an id and a username) and the sample
messages. `now` is the store's clock when the server starts. -/
def bootstrap (now : String) (db : Db) : Db :=
  let db := createTables db
  let db := orIgnore db .groups 1 (db.insertGroup (some 1) (some "Fun Friday Group")
    (some "A group for fun discussions") now)
  let db := orIgnore db .users 1 (db.insertUser (some 1) (some "Anonymous") none none now)
  let db := orIgnore db .users 2 (db.insertUser (some 2) (some "Kirtidan Gadhvi") none none now)
  sampleMessages.foldl (insertSample now) db

/-! ## What the handlers take from outside -/

/-- The identity embedded in a verified token: `req.user.user`. -/
structure Principal where
  id : Nat
  username : String
  email : String
  deriving DecidableEq, Repr

/-- The libraries and the module `./middleware/auth`, as inputs.

* `isEmail`: validator.js `isEmail`.
* `hash password salt`: `bcrypt.hash`; `compare password hash`: `bcrypt.compare`.
* `sign payload secret expiresIn`: `jwt.sign`, which for a plain payload, a
  fixed secret and a fixed expiry always yields a token.
* `JWT_SECRET`, `verifyToken`, `unauthorizedBody`: from `./middleware/auth`.
  `verifyToken` takes the `Authorization` header and yields the embedded
  principal, or nothing when the token is missing, malformed, wrongly signed
  or expired, in which case the middleware answers 401 with `unauthorizedBody`. -/
structure Lib where
  isEmail : String → Bool
  hash : String → String → String
  compare : String → String → Bool
  sign : Json → String → String → String
  JWT_SECRET : String
  verifyToken : Option String → Option Principal
  unauthorizedBody : Json

/-- What one request takes from its surroundings: the store's clock
(CURRENT_TIMESTAMP), the salt `bcrypt.genSalt(10)` draws, and the failures of
its first and second store call. -/
structure Env where
  now : String
  salt : String
  fault1 : Option String
  fault2 : Option String

/-- The SQL statements of the handlers, for the trace of a request. -/
inductive StoreCall where
  | selectUserByEmailOrUsername
  | insertUser
  | selectUserByEmail
  | selectUserById
  | selectMessagesByGroup
  | selectGroupById
  | insertMessage
  | selectMessageById
  | selectGroups
  deriving DecidableEq, Repr

/-- The outcome of a request: the response, the store afterwards and the store
calls made, in order. -/
structure Outcome where
  response : Response
  db : Db
  calls : List StoreCall

/-- Body of `POST /api/auth/register`. -/
structure RegisterBody where
  username : Option String
  email : Option String
  password : Option String

/-- Body of `POST /api/auth/login`. -/
structure LoginBody where
  email : Option String
  password : Option String

/-- Body of `POST /api/groups/:groupId/messages`: the `message` field and
whatever other fields the client sent. -/
structure PostBody where
  message : Option String
  other : List (String × Json)

/-- The requests the server routes. `authorization` is the `Authorization`
header; `groupId` is the route parameter. -/
inductive Request where
  | register (body : RegisterBody)
  | login (body : LoginBody)
  | me (authorization : Option String)
  | getMessages (groupId : SqlValue)
  | getGroup (groupId : SqlValue)
  | postMessage (authorization : Option String) (groupId : SqlValue) (body : PostBody)
  | getGroups

/-! ## JSON of rows -/

/-- A `messages` row as `SELECT *` returns it. -/
def MessageRow.toJson (r : MessageRow) : Json :=
  .obj [("id", .num r.id), ("group_id", r.group_id.toJson), ("user_id", Json.ofOptNat r.user_id),
    ("username", Json.ofOptStr r.username), ("message", .str r.message),
    ("timestamp", .str r.timestamp)]

/-- A `groups` row as `SELECT *` returns it. -/
def GroupRow.toJson (r : GroupRow) : Json :=
  .obj [("id", .num r.id), ("name", .str r.name), ("description", Json.ofOptStr r.description),
    ("avatar", Json.ofOptStr r.avatar), ("created_at", .str r.created_at)]

/-- The object `{ id, username, email }` of the auth handlers. -/
def userJson (id : Nat) (username email : String) : Json :=
  .obj [("id", .num id), ("username", .str username), ("email", .str email)]

/-- JSON of an optional value: `undefined` when there is none (no row found, no
field sent). -/
def Json.orUndefined {α : Type} (toJson : α → Json) : Option α → Json
  | some r => toJson r
  | none => .undefined

/-- The body `{ error: msg }`. -/
def errorBody (msg : String) : Json := .obj [("error", .str msg)]

/-! ## Validation (express-validator) -/

/-- An entry of `errors.array()`. -/
def validationError (field msg : String) (value : Option String) : Json :=
  .obj [("value", Json.orUndefined Json.str value), ("msg", .str msg), ("param", .str field),
    ("location", .str "body")]

/-- The variation selectors U+FE0F and U+FE0E, which validator.js `isLength`
leaves out of its count. -/
def isVariationSelector (c : Char) : Bool := c.toNat == 0xFE0F || c.toNat == 0xFE0E

/-- The length validator.js `isLength` compares: `str.length` less the
surrogate pairs (that is, the number of code points) less the occurrences of
U+FE0F and U+FE0E. -/
def isLengthCount (str : String) : Nat :=
  (str.toList.filter (fun c => !isVariationSelector c)).length

/-- `isLength({ min })`: an absent field counts as the empty string. -/
def hasMinLength (min : Nat) (value : Option String) : Bool :=
  decide (min ≤ isLengthCount (value.getD ""))

/-- `isEmail()`: an absent field is not an email. -/
def validEmail (lib : Lib) (value : Option String) : Bool :=
  match value with
  | some e => lib.isEmail e
  | none => false

/-- One validation chain: its error when the check fails. -/
def check (ok : Bool) (field msg : String) (value : Option String) : List Json :=
  if ok then [] else [validationError field msg value]

/-- The validation chains of `POST /api/auth/register`. -/
def registerErrors (lib : Lib) (body : RegisterBody) : List Json :=
  check (hasMinLength 3 body.username) "username" "Username must be at least 3 characters"
      body.username ++
    check (validEmail lib body.email) "email" "Must be a valid email" body.email ++
    check (hasMinLength 6 body.password) "password" "Password must be at least 6 characters"
      body.password

/-- The validation chains of `POST /api/auth/login`. -/
def loginErrors (lib : Lib) (body : LoginBody) : List Json :=
  check (validEmail lib body.email) "email" "Must be a valid email" body.email ++
    check body.password.isSome "password" "Password is required" body.password

/-! ## The handlers -/

/-- Modelled from the spec: `authMiddleware` of `./middleware/auth`, a module
that is not among the sources. Per the spec, `verifyToken(token) -> principal`
"fails with `AuthError` if the token is missing, malformed, signature-invalid,
or expired" and "on success returns the embedded principal"; an `AuthError` on
a token is answered 401. The verification itself and the text of the 401 body
are inputs (`Lib.verifyToken`, `Lib.unauthorizedBody`). -/
def authMiddleware (lib : Lib) (authorization : Option String) : Except Response Principal :=
  match lib.verifyToken authorization with
  | some principal => .ok principal
  | none => .error ⟨401, lib.unauthorizedBody⟩

/-- The token payload `{ user: { id, username, email } }`. -/
def tokenPayload (id : Nat) (username email : String) : Json :=
  .obj [("user", userJson id username email)]

/-- The success body of register and login: `{ token, user }`, the token signed
with `{ expiresIn: '24h' }`. -/
def authBody (lib : Lib) (id : Nat) (username email : String) : Json :=
  .obj [("token", .str (lib.sign (tokenPayload id username email) lib.JWT_SECRET "24h")),
    ("user", userJson id username email)]

/-- `POST /api/auth/register`. After validation the three fields are present;
`getD` only unwraps them. -/
def register (lib : Lib) (env : Env) (body : RegisterBody) (db : Db) : Outcome :=
  match registerErrors lib body with
  | e :: es => ⟨⟨400, .obj [("errors", .arr (e :: es))]⟩, db, []⟩
  | [] =>
    let username := body.username.getD ""
    let email := body.email.getD ""
    let password := body.password.getD ""
    match withFault env.fault1 (.ok (db.userByEmailOrUsername email username)) with
    | .error _ => ⟨⟨500, errorBody "Server error"⟩, db, [.selectUserByEmailOrUsername]⟩
    | .ok (some _) =>
      ⟨⟨400, errorBody "User already exists"⟩, db, [.selectUserByEmailOrUsername]⟩
    | .ok none =>
      let hashedPassword := lib.hash password env.salt
      match withFault env.fault2
          (db.insertUser none (some username) (some email) (some hashedPassword) env.now) with
      | .error _ =>
        ⟨⟨500, errorBody "Error creating user"⟩, db, [.selectUserByEmailOrUsername, .insertUser]⟩
      | .ok (lastID, db') =>
        ⟨⟨200, authBody lib lastID username email⟩, db',
          [.selectUserByEmailOrUsername, .insertUser]⟩

/-- `POST /api/auth/login`. -/
def login (lib : Lib) (env : Env) (body : LoginBody) (db : Db) : Outcome :=
  match loginErrors lib body with
  | e :: es => ⟨⟨400, .obj [("errors", .arr (e :: es))]⟩, db, []⟩
  | [] =>
    let email := body.email.getD ""
    let password := body.password.getD ""
    match withFault env.fault1 (.ok (db.userByEmail email)) with
    | .error _ => ⟨⟨500, errorBody "Server error"⟩, db, [.selectUserByEmail]⟩
    | .ok none => ⟨⟨400, errorBody "Invalid credentials"⟩, db, [.selectUserByEmail]⟩
    | .ok (some user) =>
      if lib.compare password user.password then
        ⟨⟨200, authBody lib user.id user.username user.email⟩, db, [.selectUserByEmail]⟩
      else
        ⟨⟨400, errorBody "Invalid credentials"⟩, db, [.selectUserByEmail]⟩

/-- `GET /api/auth/me`. -/
def me (lib : Lib) (env : Env) (authorization : Option String) (db : Db) : Outcome :=
  match authMiddleware lib authorization with
  | .error denied => ⟨denied, db, []⟩
  | .ok principal =>
    match withFault env.fault1 (.ok (db.userById principal.id)) with
    | .error _ => ⟨⟨500, errorBody "Server error"⟩, db, [.selectUserById]⟩
    | .ok user =>
      ⟨⟨200, Json.orUndefined (fun u : UserRow => userJson u.id u.username u.email) user⟩, db,
        [.selectUserById]⟩

/-- `GET /api/groups/:groupId/messages`. -/
def getMessages (env : Env) (groupId : SqlValue) (db : Db) : Outcome :=
  match withFault env.fault1 (.ok (db.messagesByGroup groupId)) with
  | .error message => ⟨⟨500, errorBody message⟩, db, [.selectMessagesByGroup]⟩
  | .ok rows => ⟨⟨200, .arr (rows.map MessageRow.toJson)⟩, db, [.selectMessagesByGroup]⟩

/-- `GET /api/groups/:groupId`. -/
def getGroup (env : Env) (groupId : SqlValue) (db : Db) : Outcome :=
  match withFault env.fault1 (.ok (db.groupById groupId)) with
  | .error message => ⟨⟨500, errorBody message⟩, db, [.selectGroupById]⟩
  | .ok row => ⟨⟨200, Json.orUndefined GroupRow.toJson row⟩, db, [.selectGroupById]⟩

/-- `!message` for an optional string: absent or empty. -/
def isFalsy (message : Option String) : Bool :=
  match message with
  | none => true
  | some m => m == ""

/-- `POST /api/groups/:groupId/messages`. The author is taken from the verified
token; of the body only `message` is read. -/
def postMessage (lib : Lib) (env : Env) (authorization : Option String) (groupId : SqlValue)
    (body : PostBody) (db : Db) : Outcome :=
  match authMiddleware lib authorization with
  | .error denied => ⟨denied, db, []⟩
  | .ok principal =>
    let message := body.message
    let userId := principal.id
    let username := principal.username
    if isFalsy message then
      ⟨⟨400, errorBody "Message is required"⟩, db, []⟩
    else
      match withFault env.fault1
          (db.insertMessage groupId (some userId) (some username) message none env.now) with
      | .error e => ⟨⟨500, errorBody e⟩, db, [.insertMessage]⟩
      | .ok (lastID, db') =>
        match withFault env.fault2 (.ok (db'.messageById lastID)) with
        | .error e => ⟨⟨500, errorBody e⟩, db', [.insertMessage, .selectMessageById]⟩
        | .ok row =>
          ⟨⟨201, Json.orUndefined MessageRow.toJson row⟩, db', [.insertMessage, .selectMessageById]⟩

/-- `GET /api/groups`. -/
def getGroups (env : Env) (db : Db) : Outcome :=
  match withFault env.fault1 (.ok db.allGroups) with
  | .error message => ⟨⟨500, errorBody message⟩, db, [.selectGroups]⟩
  | .ok rows => ⟨⟨200, .arr (rows.map GroupRow.toJson)⟩, db, [.selectGroups]⟩

/-- The router. -/
def handle (lib : Lib) (env : Env) (req : Request) (db : Db) : Outcome :=
  match req with
  | .register body => register lib env body db
  | .login body => login lib env body db
  | .me authorization => me lib env authorization db
  | .getMessages groupId => getMessages env groupId db
  | .getGroup groupId => getGroup env groupId db
  | .postMessage authorization groupId body => postMessage lib env authorization groupId body db
  | .getGroups => getGroups env db

/-- A sequence of requests, each with its surroundings, served one after the
other: the responses in order and the store at the end. -/
def serve (lib : Lib) : List (Env × Request) → Db → List Response × Db
  | [], db => ([], db)
  | (env, req) :: rest, db =>
    let out := handle lib env req db
    let (responses, db') := serve lib rest out.db
    (out.response :: responses, db')

/-! ## A concrete instance for evaluation -/

/-- A stand-in for the libraries: an email is a string containing `@`; the hash
is the salt, a `$` and the password; a token is its secret followed by the
expiry; the header `alice` verifies as user 7 and `bob` as user 8. -/
def demoLib : Lib where
  isEmail s := s.toList.contains '@'
  hash password salt := salt ++ "$" ++ password
  compare password hashed := (hashed.toList.dropWhile (fun c => c != '$')).drop 1 == password.toList
  sign _ secret expiresIn := secret ++ "." ++ expiresIn
  JWT_SECRET := "secret"
  verifyToken authorization :=
    if authorization == some "alice" then some ⟨7, "alice", "alice@x.com"⟩
    else if authorization == some "bob" then some ⟨8, "bob", "bob@x.com"⟩
    else none
  unauthorizedBody := errorBody "Token is not valid"

/-- Surroundings without failures. -/
def calm (now : String) : Env := ⟨now, "salt", none, none⟩

/-- A store that holds one message, of group 2. -/
def demoStore : Db :=
  { Db.empty with
    messages := [⟨1, .int 2, some 8, some "bob", "elsewhere", "2026-01-01 09:00:00"⟩]
    messagesSeq := 1 }

/-- A store that holds the user `alice`, registered with the password
`secret1`. -/
def demoUsers : Db :=
  { Db.empty with
    users := [⟨1, "alice", "alice@x.com", "salt$secret1", none, "2026-01-01 09:00:00"⟩]
    usersSeq := 1 }

/-- A registration of `alice`. -/
def demoAlice : RegisterBody := ⟨some "alice", some "alice@x.com", some "secret1"⟩

/-- A registration under another username with the email of `alice`. -/
def demoAlicia : RegisterBody := ⟨some "alicia", some "alice@x.com", some "hunter22"⟩

/-- Surroundings whose first store call fails with the given message. -/
def failing (message : String) : Env := ⟨"2026-01-01 10:00:00", "salt", some message, none⟩

/-- Surroundings whose second store call fails with the given message. -/
def failingSecond (message : String) : Env := ⟨"2026-01-01 10:00:00", "salt", none, some message⟩

/-- A registration whose username is `a`, `b` and the variation selector
U+FE0F: three code points (and three UTF-16 units). -/
def demoSelector : RegisterBody :=
  ⟨some (String.mk ['a', 'b', Char.ofNat 0xFE0F]), some "alice@x.com", some "secret1"⟩

/-! ## Vocabulary of the properties -/

/-- A request that was rejected at validation: answered 400 with a non-empty
list of validation errors, without store call and without change of the store. -/
def RejectedAtValidation (out : Outcome) (db : Db) : Prop :=
  (∃ errs : List Json, errs ≠ [] ∧ out.response = ⟨400, .obj [("errors", .arr errs)]⟩) ∧
    out.db = db ∧ out.calls = []

/-- A text made of whitespace characters only (the empty text included). -/
def isBlank (m : String) : Bool := m.toList.all Char.isWhitespace

/-- One post within a run: its surroundings, the `Authorization` header and the
body the client sent. -/
structure Post where
  env : Env
  authorization : Option String
  body : PostBody

/-- Three posts, the first two within the same second. -/
def demoPosts : List Post :=
  [ ⟨calm "2026-01-01 10:00:00", some "alice", ⟨some "hi", []⟩⟩,
    ⟨calm "2026-01-01 10:00:00", some "bob", ⟨some "yo", [("username", .str "alice")]⟩⟩,
    ⟨calm "2026-01-01 10:00:01", some "alice", ⟨some "again", []⟩⟩ ]

/-- Two posts, the second stamped one second before the first (the store's
clock was set back in between). -/
def demoBackwards : List Post :=
  [ ⟨calm "2026-01-01 10:00:01", some "alice", ⟨some "first", []⟩⟩,
    ⟨calm "2026-01-01 10:00:00", some "alice", ⟨some "second", []⟩⟩ ]

/-- The request a post makes to group `groupId`. -/
def Post.request (groupId : SqlValue) (p : Post) : Env × Request :=
  (p.env, .postMessage p.authorization groupId p.body)

/-- A post that the server accepts when the store does not fail: the token
verifies, the message is not falsy and neither store call fails. -/
def Post.Accepted (lib : Lib) (p : Post) : Prop :=
  (lib.verifyToken p.authorization).isSome = true ∧ isFalsy p.body.message = false ∧
    p.env.fault1 = none ∧ p.env.fault2 = none


/-! ## The client: composing and sending (`ChatInterface.jsx`) -/

/-- What the component holds that `sendMessage` reads or writes: the three
pieces of React state, and around them the session of the auth context and the
route. Off the route `/chat` the component is not mounted and the three pieces
have their initial values. -/
structure ChatState where
  messages : List Json
  newMessage : String
  sending : Bool
  loggedIn : Bool
  path : String

/-- How the awaited `axios.post` ends: it resolves with `response.data`, or it
rejects with `error.response?.status` (absent when no response arrived). -/
inductive PostResult where
  | resolved (data : Json)
  | rejected (status : Option Nat)

/-- The characters `String.prototype.trim` strips: WhiteSpace and
LineTerminator of ECMAScript. -/
def isJsWhiteSpace (c : Char) : Bool :=
  c.toNat ∈ [0x09, 0x0A, 0x0B, 0x0C, 0x0D, 0x20, 0xA0, 0x1680, 0x2028, 0x2029, 0x202F, 0x205F,
      0x3000, 0xFEFF] ||
    (0x2000 ≤ c.toNat && c.toNat ≤ 0x200A)

/-- `!text.trim()`: the text is empty once trimmed, that is, it has whitespace
only. -/
def trimIsEmpty (text : String) : Bool := text.toList.all isJsWhiteSpace

/-- Modelled from the spec: `logout` of `../context/AuthContext`, a module that
is not among the sources; per the spec a 401 "terminates the local session". -/
def logout (c : ChatState) : ChatState := { c with loggedIn := false }

/-- `navigate(path)` of the router. `ChatInterface` is the element of the route
`/chat` only (`App.jsx`); on `/login` the router renders `Login`, so leaving
`/chat` unmounts the component and its `useState` values are discarded: what
remains are the initial values `[]`, `''` and `false` a later mount starts
from. -/
def navigate (path : String) (c : ChatState) : ChatState :=
  if path == "/chat" then { c with path := path }
  else { messages := [], newMessage := "", sending := false, loggedIn := c.loggedIn, path := path }

/-- `sendMessage` up to its `await`: the guard, `setSending(true)`, the copy
`messageToSend` and `setNewMessage('')`. Yields the state and the message of
the POST that was issued, if one was. -/
def sendMessageStart (c : ChatState) : ChatState × Option String :=
  if trimIsEmpty c.newMessage || c.sending then (c, none)
  else
    let messageToSend := c.newMessage
    ({ c with sending := true, newMessage := "" }, some messageToSend)

/-- `sendMessage` from its `await` on: the `try` continues when the POST
resolves, the `catch` runs when it rejects, then the `finally`. -/
def sendMessageFinish (messageToSend : String) (result : PostResult) (c : ChatState) :
    ChatState :=
  let c :=
    match result with
    | .resolved data => { c with messages := c.messages ++ [data] }
    | .rejected status =>
      let c := { c with newMessage := messageToSend }
      if status == some 401 then navigate "/login" (logout c) else c
  { c with sending := false }

/-- What the user can do with the input row. -/
inductive UiEvent where
  | change (value : String)
  | clickSend
  | pressEnter

/-- One event on the input row: `onChange` and `onKeyPress` of the input
(`disabled={sending}`) and `onClick` of the button
(`disabled={!newMessage.trim() || sending}`). A disabled control gets no event. -/
def ui (c : ChatState) : UiEvent → ChatState × Option String
  | .change value => if c.sending then (c, none) else ({ c with newMessage := value }, none)
  | .clickSend => if trimIsEmpty c.newMessage || c.sending then (c, none) else sendMessageStart c
  | .pressEnter => if c.sending then (c, none) else sendMessageStart c

/-- A sequence of events on the input row: the state at the end and the
messages of the POSTs issued, in order. -/
def uiAll : ChatState → List UiEvent → ChatState × List String
  | c, [] => (c, [])
  | c, e :: rest =>
    let (c', posted) := ui c e
    let (c'', more) := uiAll c' rest
    (c'', posted.toList ++ more)

/-- A whole run of `sendMessage`: the start, the events on the input row while
the POST is awaited, and the end with the result of the POST. When the guard
returns, nothing else happens. -/
def sendMessage (events : List UiEvent) (result : PostResult) (c : ChatState) : ChatState :=
  match sendMessageStart c with
  | (c', some messageToSend) => sendMessageFinish messageToSend result (uiAll c' events).1
  | (c', none) => c'

/-- A component showing one message, with ` hi ` composed. -/
def demoChat : ChatState :=
  ⟨[.obj [("id", .num 1), ("message", .str "Hello!")]], " hi ", false, true, "/chat"⟩

end Chat

/-! # Properties -/

namespace Chat

/-! ## Posting a message: the author comes from the token -/

/-- C1: a post that passes token verification with principal `p` and carries a
non-empty message adds no row other than one authored by `p` (user_id and
username), adds exactly such a row when the insert does not fail, and its whole
outcome does not depend on the other fields of the body. -/
theorem postMessage_author_from_token (lib : Lib) (env : Env) (authorization : Option String)
    (groupId : SqlValue) (m : String) (other other' : List (String × Json)) (db : Db)
    (p : Principal) (hverify : lib.verifyToken authorization = some p) (hm : m ≠ "") :
    (∀ row ∈ (postMessage lib env authorization groupId ⟨some m, other⟩ db).db.messages,
        row ∉ db.messages → row.user_id = some p.id ∧ row.username = some p.username) ∧
      (env.fault1 = none → ∃ row : MessageRow,
        (postMessage lib env authorization groupId ⟨some m, other⟩ db).db.messages
            = db.messages ++ [row] ∧
          row.user_id = some p.id ∧ row.username = some p.username ∧ row.message = m ∧
          row.group_id = groupId) ∧
      postMessage lib env authorization groupId ⟨some m, other'⟩ db
        = postMessage lib env authorization groupId ⟨some m, other⟩ db := by
  refine ⟨?_, ?_, ?_⟩
  · intro row hrow hnew
    cases hf : env.fault1 with
    | some e =>
      simp [postMessage, authMiddleware, hverify, isFalsy, hm, hf, withFault] at hrow
      exact absurd hrow hnew
    | none =>
      cases hf2 : env.fault2 <;>
        simp [postMessage, authMiddleware, hverify, isFalsy, hm, hf, hf2, withFault,
          Db.insertMessage] at hrow <;>
        rcases hrow with h | h
      · exact absurd h hnew
      · subst h; exact ⟨rfl, rfl⟩
      · exact absurd h hnew
      · subst h; exact ⟨rfl, rfl⟩
  · intro hf
    refine ⟨⟨nextId db.messagesSeq (db.messages.map (·.id)), groupId, some p.id,
      some p.username, m, env.now⟩, ?_, rfl, rfl, rfl, rfl⟩
    cases hf2 : env.fault2 <;>
      simp [postMessage, authMiddleware, hverify, isFalsy, hm, hf, hf2, withFault, Db.insertMessage]
  · simp [postMessage, authMiddleware]

/-- C1, at a concrete request: a token of user 7 `alice` and a body that claims
to be `bob`. -/
theorem postMessage_author_from_token_witness :
    (∀ row ∈ (postMessage demoLib (calm "2026-01-01 10:00:00") (some "alice") (.int 1)
          ⟨some "hi", [("username", .str "bob"), ("user_id", .num 8)]⟩ Db.empty).db.messages,
        row ∉ Db.empty.messages → row.user_id = some 7 ∧ row.username = some "alice") ∧
      ((calm "2026-01-01 10:00:00").fault1 = none → ∃ row : MessageRow,
        (postMessage demoLib (calm "2026-01-01 10:00:00") (some "alice") (.int 1)
          ⟨some "hi", [("username", .str "bob"), ("user_id", .num 8)]⟩ Db.empty).db.messages
            = Db.empty.messages ++ [row] ∧
          row.user_id = some 7 ∧ row.username = some "alice" ∧ row.message = "hi" ∧
          row.group_id = .int 1) ∧
      postMessage demoLib (calm "2026-01-01 10:00:00") (some "alice") (.int 1)
          ⟨some "hi", []⟩ Db.empty
        = postMessage demoLib (calm "2026-01-01 10:00:00") (some "alice") (.int 1)
          ⟨some "hi", [("username", .str "bob"), ("user_id", .num 8)]⟩ Db.empty :=
  postMessage_author_from_token demoLib (calm "2026-01-01 10:00:00") (some "alice") (.int 1)
    "hi" [("username", .str "bob"), ("user_id", .num 8)] [] Db.empty ⟨7, "alice", "alice@x.com"⟩
    (by decide) (by decide)


/-! ## Posting a message: validation of the text -/

/-- C2, as stated, fails: a message of three spaces is whitespace only, yet the
post is answered 201 and its row is persisted. -/
theorem postMessage_whitespace_accepted :
    isBlank "   " = true ∧
      (postMessage demoLib (calm "2026-01-01 10:00:00") (some "alice") (.int 1)
        ⟨some "   ", []⟩ Db.empty).response.status = 201 ∧
      (postMessage demoLib (calm "2026-01-01 10:00:00") (some "alice") (.int 1)
        ⟨some "   ", []⟩ Db.empty).db.messages
        = [⟨1, .int 1, some 7, some "alice", "   ", "2026-01-01 10:00:00"⟩] := by
  decide

/-- C2, amended: an authenticated post is answered 400 exactly when its message
is the empty string or is absent (a whitespace-only message is not rejected),
and then the body is `Message is required`, no store call was made and the
store is unchanged. -/
theorem postMessage_empty_rejected (lib : Lib) (env : Env) (authorization : Option String)
    (groupId : SqlValue) (message : Option String) (other : List (String × Json)) (db : Db)
    (hverify : (lib.verifyToken authorization).isSome = true) :
    ((postMessage lib env authorization groupId ⟨message, other⟩ db).response.status = 400 ↔
        (message = some "" ∨ message = none)) ∧
      ((message = some "" ∨ message = none) →
        (postMessage lib env authorization groupId ⟨message, other⟩ db).response
            = ⟨400, errorBody "Message is required"⟩ ∧
          (postMessage lib env authorization groupId ⟨message, other⟩ db).db = db ∧
          (postMessage lib env authorization groupId ⟨message, other⟩ db).calls = []) := by
  obtain ⟨p, hp⟩ := Option.isSome_iff_exists.mp hverify
  constructor
  · cases message with
    | none => simp [postMessage, authMiddleware, hp, isFalsy]
    | some m =>
      by_cases hm : m = ""
      · simp [postMessage, authMiddleware, hp, isFalsy, hm]
      · cases hf : env.fault1 <;> cases hf2 : env.fault2 <;>
          simp [postMessage, authMiddleware, hp, isFalsy, hm, hf, hf2, withFault, Db.insertMessage]
  · intro hm
    rcases hm with rfl | rfl <;> simp [postMessage, authMiddleware, hp, isFalsy]

/-- C2, amended, at a concrete request: the empty message on the fresh store. -/
theorem postMessage_empty_rejected_witness :
    ((postMessage demoLib (calm "2026-01-01 10:00:00") (some "alice") (.int 1)
          ⟨some "", []⟩ Db.empty).response.status = 400 ↔
        (some "" = some "" ∨ some "" = (none : Option String))) ∧
      ((some "" = some "" ∨ some "" = (none : Option String)) →
        (postMessage demoLib (calm "2026-01-01 10:00:00") (some "alice") (.int 1)
            ⟨some "", []⟩ Db.empty).response = ⟨400, errorBody "Message is required"⟩ ∧
          (postMessage demoLib (calm "2026-01-01 10:00:00") (some "alice") (.int 1)
            ⟨some "", []⟩ Db.empty).db = Db.empty ∧
          (postMessage demoLib (calm "2026-01-01 10:00:00") (some "alice") (.int 1)
            ⟨some "", []⟩ Db.empty).calls = []) :=
  postMessage_empty_rejected demoLib (calm "2026-01-01 10:00:00") (some "alice") (.int 1)
    (some "") [] Db.empty (by decide)

/-! ## Listing the messages of a group -/

/-- The counter and every id present are below the id AUTOINCREMENT assigns. -/
theorem le_foldl_max (ids : List Nat) (seq : Nat) :
    seq ≤ ids.foldl max seq ∧ ∀ i ∈ ids, i ≤ ids.foldl max seq := by
  induction ids generalizing seq with
  | nil => simp
  | cons a rest ih =>
    obtain ⟨h1, h2⟩ := ih (max seq a)
    refine ⟨le_trans (le_max_left _ _) h1, ?_⟩
    intro i hi
    rcases List.mem_cons.mp hi with rfl | hi
    · exact le_trans (le_max_right _ _) h1
    · exact h2 i hi

/-- Every id present is smaller than the id AUTOINCREMENT assigns. -/
theorem lt_nextId (seq : Nat) (ids : List Nat) : ∀ i ∈ ids, i < nextId seq ids := by
  intro i hi
  exact Nat.lt_succ_of_le ((le_foldl_max ids seq).2 i hi)

/-- The `SELECT` by id that follows an insert finds the row just inserted. -/
theorem messageById_inserted (db : Db) (row : MessageRow) (seq : Nat)
    (hid : row.id = nextId db.messagesSeq (db.messages.map (·.id))) :
    ({ db with messages := db.messages ++ [row], messagesSeq := seq } : Db).messageById row.id
      = some row := by
  have hnone : db.messages.find? (fun r => r.id == row.id) = none := by
    rw [List.find?_eq_none]
    intro x hx
    have := lt_nextId db.messagesSeq (db.messages.map (·.id)) x.id (List.mem_map_of_mem _ hx)
    simp only [beq_iff_eq]
    omega
  simp [Db.messageById, List.find?_append, hnone]

/-- An accepted post answers 201 with the row it appended: the next id, the
route's group, the token's author, the message and the store's clock. -/
theorem postMessage_accepted (lib : Lib) (env : Env) (authorization : Option String)
    (groupId : SqlValue) (body : PostBody) (db : Db)
    (h : Post.Accepted lib ⟨env, authorization, body⟩) :
    ∃ row : MessageRow,
      (postMessage lib env authorization groupId body db).response = ⟨201, row.toJson⟩ ∧
      (postMessage lib env authorization groupId body db).db
        = { db with messages := db.messages ++ [row], messagesSeq := row.id } ∧
      row.id = nextId db.messagesSeq (db.messages.map (·.id)) ∧ row.group_id = groupId ∧
      some row.message = body.message ∧ row.timestamp = env.now := by
  obtain ⟨hv, hm, hf1, hf2⟩ := h
  obtain ⟨p, hp⟩ := Option.isSome_iff_exists.mp hv
  simp only at hp hm hf1 hf2
  cases hb : body.message with
  | none => simp [hb, isFalsy] at hm
  | some m =>
    rw [hb] at hm
    refine ⟨⟨nextId db.messagesSeq (db.messages.map (·.id)), groupId, some p.id,
      some p.username, m, env.now⟩, ?_, ?_, rfl, rfl, rfl, rfl⟩
    · have hfind := messageById_inserted db ⟨nextId db.messagesSeq (db.messages.map (·.id)),
        groupId, some p.id, some p.username, m, env.now⟩
        (nextId db.messagesSeq (db.messages.map (·.id))) rfl
      simp only at hfind
      simp [postMessage, authMiddleware, hp, hm, hf1, hf2, withFault, Db.insertMessage, hb,
        hfind, Json.orUndefined]
    · simp [postMessage, authMiddleware, hp, hm, hf1, hf2, withFault, Db.insertMessage, hb]

/-- A run of accepted posts to one group appends one row per post, in order,
and answers each post 201 with its row; the ids grow along the run and exceed
the ids already present. -/
theorem serve_posts (lib : Lib) (groupId : SqlValue) (posts : List Post) (db : Db)
    (hacc : ∀ p ∈ posts, Post.Accepted lib p) :
    ∃ rows : List MessageRow,
      (serve lib (posts.map (Post.request groupId)) db).1
        = rows.map (fun r => (⟨201, r.toJson⟩ : Response)) ∧
      (serve lib (posts.map (Post.request groupId)) db).2.messages = db.messages ++ rows ∧
      (∀ r ∈ rows, r.group_id = groupId) ∧
      rows.map (·.timestamp) = posts.map (·.env.now) ∧
      rows.map (fun r => some r.message) = posts.map (·.body.message) ∧
      (∀ r ∈ rows, ∀ x ∈ db.messages, x.id < r.id) ∧
      rows.Pairwise (fun a b => a.id < b.id) := by
  induction posts generalizing db with
  | nil => exact ⟨[], by simp [serve]⟩
  | cons p rest ih =>
    obtain ⟨row, hresp, hdb, hid, hgroup, hmsg, hts⟩ :=
      postMessage_accepted lib p.env p.authorization groupId p.body db
        (hacc p (List.mem_cons_self _ _))
    obtain ⟨rows, h1, h2, h3, h4, h5, h6, h7⟩ :=
      ih (postMessage lib p.env p.authorization groupId p.body db).db
        (fun q hq => hacc q (List.mem_cons_of_mem _ hq))
    have hbelow : ∀ x ∈ db.messages, x.id < row.id := by
      intro x hx
      rw [hid]
      exact lt_nextId _ _ x.id (List.mem_map_of_mem _ hx)
    rw [hdb] at h2 h6
    simp only [List.mem_append, List.mem_singleton] at h6
    refine ⟨row :: rows, ?_, ?_, ?_, ?_, ?_, ?_, ?_⟩
    · simp [serve, Post.request, handle, h1, hresp]
    · simp [serve, Post.request, handle, hdb, h2]
    · intro r hr
      rcases List.mem_cons.mp hr with rfl | hr
      · exact hgroup
      · exact h3 r hr
    · simp [h4, hts]
    · simp [h5, hmsg]
    · intro r hr x hx
      rcases List.mem_cons.mp hr with rfl | hr
      · exact hbelow x hx
      · exact h6 r hr x (Or.inl hx)
    · exact List.pairwise_cons.mpr ⟨fun r hr => h6 r hr row (Or.inr rfl), h7⟩

/-- Inserting a row whose id is below all ids of a list ordered by timestamp,
ties by ascending id, keeps that order. -/
theorem orderedInsert_ties (a : MessageRow) (rows : List MessageRow)
    (hrows : rows.Pairwise (fun x y => x.timestamp ≤ y.timestamp ∧
      (x.timestamp = y.timestamp → x.id < y.id)))
    (hid : ∀ b ∈ rows, a.id < b.id) :
    (rows.orderedInsert (fun x y => x.timestamp ≤ y.timestamp) a).Pairwise
      (fun x y => x.timestamp ≤ y.timestamp ∧ (x.timestamp = y.timestamp → x.id < y.id)) := by
  induction rows with
  | nil => simp
  | cons b rest ih =>
    obtain ⟨hb, hrest⟩ := List.pairwise_cons.mp hrows
    by_cases hab : a.timestamp ≤ b.timestamp
    · rw [List.orderedInsert, if_pos hab]
      refine List.pairwise_cons.mpr ⟨?_, hrows⟩
      intro x hx
      rcases List.mem_cons.mp hx with rfl | hx
      · exact ⟨hab, fun _ => hid _ (List.mem_cons_self _ _)⟩
      · exact ⟨le_trans hab (hb x hx).1, fun _ => hid x (List.mem_cons_of_mem _ hx)⟩
    · rw [List.orderedInsert, if_neg hab]
      refine List.pairwise_cons.mpr
        ⟨?_, ih hrest (fun x hx => hid x (List.mem_cons_of_mem _ hx))⟩
      intro x hx
      rcases (List.mem_orderedInsert _).mp hx with rfl | hx
      · exact ⟨le_of_lt (lt_of_not_le hab), fun h => absurd (le_of_eq h.symm) hab⟩
      · exact hb x hx

/-- The sort of `ORDER BY timestamp ASC` keeps rows of equal timestamp in
ascending id when the scan delivers the rows in ascending id. -/
theorem insertionSort_ties (rows : List MessageRow)
    (hid : rows.Pairwise (fun x y => x.id < y.id)) :
    (rows.insertionSort (fun x y => x.timestamp ≤ y.timestamp)).Pairwise
      (fun x y => x.timestamp ≤ y.timestamp ∧ (x.timestamp = y.timestamp → x.id < y.id)) := by
  induction rows with
  | nil => simp
  | cons a rest ih =>
    obtain ⟨ha, hrest⟩ := List.pairwise_cons.mp hid
    rw [List.insertionSort]
    exact orderedInsert_ties a _ (ih hrest)
      (fun b hb => ha b ((List.mem_insertionSort _).mp hb))

/-- The store after the two posts of `demoBackwards` to group 1. -/
theorem serve_demoBackwards :
    (serve demoLib (demoBackwards.map (Post.request (.int 1))) Db.empty).2.messages
      = [⟨1, .int 1, some 7, some "alice", "first", "2026-01-01 10:00:01"⟩,
          ⟨2, .int 1, some 7, some "alice", "second", "2026-01-01 10:00:00"⟩] := by
  decide

/-- C3, as stated, fails: two posts to an empty group are both answered 201,
`first` and then `second`, the store stamps the second one second before the
first, and the listing returns `second` before `first`. -/
theorem getMessages_clock_backwards :
    (serve demoLib (demoBackwards.map (Post.request (.int 1))) Db.empty).1.map (·.status)
        = [201, 201] ∧
      demoBackwards.map (·.body.message) = [some "first", some "second"] ∧
      ((serve demoLib (demoBackwards.map (Post.request (.int 1))) Db.empty).2.messagesByGroup
          (.int 1)).map (·.message) = ["second", "first"] := by
  refine ⟨by decide, by decide, ?_⟩
  have hlate : ¬ "2026-01-01 10:00:01" ≤ "2026-01-01 10:00:00" := by
    rw [String.le_iff_toList_le]
    decide
  rw [Db.messagesByGroup, serve_demoBackwards]
  have hfilter : List.filter (fun r : MessageRow => r.group_id == SqlValue.int 1)
      [⟨1, .int 1, some 7, some "alice", "first", "2026-01-01 10:00:01"⟩,
        ⟨2, .int 1, some 7, some "alice", "second", "2026-01-01 10:00:00"⟩]
      = [⟨1, .int 1, some 7, some "alice", "first", "2026-01-01 10:00:01"⟩,
        ⟨2, .int 1, some 7, some "alice", "second", "2026-01-01 10:00:00"⟩] := by
    decide
  rw [hfilter]
  simp only [List.insertionSort, List.orderedInsert, if_neg hlate, List.map]

/-- C3, amended: on a store with no message of group `g`, after a run of
accepted posts to `g`, every post was answered 201 and `GET
/api/groups/g/messages` answers 200 with exactly the posted rows, each once, in
non-decreasing timestamp, rows of equal timestamp in ascending id; when the
timestamps the store assigns do not decrease from one post to the next (ties
included), the listing is the list of the posted rows (the bodies of the 201
answers) in the order of the posts. -/
theorem getMessages_after_posts (lib : Lib) (env : Env) (groupId : SqlValue)
    (posts : List Post) (db : Db)
    (hempty : ∀ r ∈ db.messages, r.group_id ≠ groupId)
    (hacc : ∀ p ∈ posts, Post.Accepted lib p)
    (hfault : env.fault1 = none) :
    (∀ r ∈ (serve lib (posts.map (Post.request groupId)) db).1, r.status = 201) ∧
      (getMessages env groupId (serve lib (posts.map (Post.request groupId)) db).2).response
        = ⟨200, .arr (((serve lib (posts.map (Post.request groupId)) db).2.messagesByGroup
            groupId).map MessageRow.toJson)⟩ ∧
      (((serve lib (posts.map (Post.request groupId)) db).2.messagesByGroup groupId).map
          (fun r => (⟨201, r.toJson⟩ : Response))).Perm
        (serve lib (posts.map (Post.request groupId)) db).1 ∧
      ((serve lib (posts.map (Post.request groupId)) db).2.messagesByGroup groupId).Pairwise
        (fun a b => a.timestamp ≤ b.timestamp ∧ (a.timestamp = b.timestamp → a.id < b.id)) ∧
      ((posts.map (·.env.now)).Pairwise (· ≤ ·) →
        (getMessages env groupId (serve lib (posts.map (Post.request groupId)) db).2).response
          = ⟨200, .arr ((serve lib (posts.map (Post.request groupId)) db).1.map (·.body))⟩ ∧
        ((serve lib (posts.map (Post.request groupId)) db).2.messagesByGroup groupId).map
          (fun r => some r.message) = posts.map (·.body.message) ∧
        ((serve lib (posts.map (Post.request groupId)) db).2.messagesByGroup groupId).Pairwise
          (fun a b => a.id < b.id)) := by
  obtain ⟨rows, h1, h2, h3, h4, h5, _, h7⟩ := serve_posts lib groupId posts db hacc
  have hfilter : (db.messages ++ rows).filter (fun r => r.group_id == groupId) = rows := by
    rw [List.filter_append]
    have hnil : db.messages.filter (fun r => r.group_id == groupId) = [] := by
      rw [List.filter_eq_nil_iff]
      intro r hr
      simpa using hempty r hr
    have hall : rows.filter (fun r => r.group_id == groupId) = rows := by
      rw [List.filter_eq_self]
      intro r hr
      simpa using h3 r hr
    rw [hnil, hall, List.nil_append]
  have hlist : (serve lib (posts.map (Post.request groupId)) db).2.messagesByGroup groupId
      = rows.insertionSort (fun a b => a.timestamp ≤ b.timestamp) := by
    rw [Db.messagesByGroup, h2, hfilter]
  refine ⟨?_, ?_, ?_, ?_, ?_⟩
  · intro r hr
    rw [h1] at hr
    obtain ⟨row, _, rfl⟩ := List.mem_map.mp hr
    rfl
  · simp [getMessages, hfault, withFault]
  · rw [hlist, h1]
    exact (List.perm_insertionSort _ rows).map _
  · rw [hlist]
    exact insertionSort_ties rows h7
  · intro hclock
    have hsorted : rows.Sorted (fun a b => a.timestamp ≤ b.timestamp) := by
      rw [← h4] at hclock
      exact List.pairwise_map.mp hclock
    have hsame : (serve lib (posts.map (Post.request groupId)) db).2.messagesByGroup groupId
        = rows := by
      rw [hlist]
      exact hsorted.insertionSort_eq
    refine ⟨?_, ?_, ?_⟩
    · simp [getMessages, hfault, withFault, hsame, h1, Function.comp_def]
    · rw [hsame, h5]
    · rw [hsame]
      exact h7

/-- C4: when the store query does not fail, `GET /api/groups/:groupId/messages`
answers 200 with the rows of that group, each once (a permutation of the rows
whose group_id is the id), in non-decreasing timestamp order, and leaves the
store as it is; for an id without message rows, be it of a group that exists or
not, the answer is 200 with the empty list. -/
theorem getMessages_lists_group (env : Env) (groupId : SqlValue) (db : Db)
    (hfault : env.fault1 = none) :
    (getMessages env groupId db).response
        = ⟨200, .arr ((db.messagesByGroup groupId).map MessageRow.toJson)⟩ ∧
      (getMessages env groupId db).db = db ∧
      (db.messagesByGroup groupId).Perm (db.messages.filter (fun r => r.group_id = groupId)) ∧
      (db.messagesByGroup groupId).Sorted (fun a b => a.timestamp ≤ b.timestamp) ∧
      ((∀ r ∈ db.messages, r.group_id ≠ groupId) →
        (getMessages env groupId db).response = ⟨200, .arr []⟩) := by
  haveI : IsTotal MessageRow (fun a b => a.timestamp ≤ b.timestamp) :=
    ⟨fun a b => le_total a.timestamp b.timestamp⟩
  haveI : IsTrans MessageRow (fun a b => a.timestamp ≤ b.timestamp) :=
    ⟨fun _ _ _ hab hbc => le_trans hab hbc⟩
  have hfilter : db.messages.filter (fun r => r.group_id == groupId)
      = db.messages.filter (fun r => r.group_id = groupId) := by
    rfl
  refine ⟨?_, ?_, ?_, ?_, ?_⟩
  · simp [getMessages, hfault, withFault]
  · simp [getMessages, hfault, withFault]
  · rw [Db.messagesByGroup, hfilter]
    exact List.perm_insertionSort _ _
  · exact List.sorted_insertionSort _ _
  · intro hnone
    have hnil : db.messages.filter (fun r => r.group_id == groupId) = [] := by
      rw [List.filter_eq_nil_iff]
      intro r hr
      simpa using hnone r hr
    simp [getMessages, hfault, withFault, Db.messagesByGroup, hnil]

/-- C3, amended, at a concrete run: three posts to group 1, two of them within the same
second, on a store whose only message belongs to group 2. -/
theorem getMessages_after_posts_witness :
    (∀ r ∈ demoStore.messages, r.group_id ≠ .int 1) ∧
      (∀ p ∈ demoPosts, Post.Accepted demoLib p) ∧
      (demoPosts.map (·.env.now)).Pairwise (· ≤ ·) ∧
      (getMessages (calm "2026-01-01 11:00:00") (.int 1)
          (serve demoLib (demoPosts.map (Post.request (.int 1))) demoStore).2).response
        = ⟨200, .arr ((serve demoLib (demoPosts.map (Post.request (.int 1))) demoStore).1.map
            (·.body))⟩ :=
  have hempty : ∀ r ∈ demoStore.messages, r.group_id ≠ .int 1 := by decide
  have hacc : ∀ p ∈ demoPosts, Post.Accepted demoLib p := by
    intro p hp
    simp only [demoPosts, List.mem_cons, List.mem_singleton, List.not_mem_nil, or_false] at hp
    rcases hp with rfl | rfl | rfl <;> exact ⟨by decide, by decide, rfl, rfl⟩
  have hclock : (demoPosts.map (·.env.now)).Pairwise (· ≤ ·) := by
    simp [demoPosts, calm]
    decide
  ⟨hempty, hacc, hclock,
    ((getMessages_after_posts demoLib (calm "2026-01-01 11:00:00") (.int 1) demoPosts demoStore
      hempty hacc rfl).2.2.2.2 hclock).1⟩

/-- C4, at a concrete request: the messages of group 1 of the store after
startup. -/
theorem getMessages_lists_group_witness :
    (calm "2026-01-01 11:00:00").fault1 = none ∧
      (getMessages (calm "2026-01-01 11:00:00") (.int 1)
          (bootstrap "2026-01-01 08:00:00" Db.empty)).response
        = ⟨200, .arr (((bootstrap "2026-01-01 08:00:00" Db.empty).messagesByGroup (.int 1)).map
            MessageRow.toJson)⟩ :=
  ⟨rfl, (getMessages_lists_group (calm "2026-01-01 11:00:00") (.int 1)
    (bootstrap "2026-01-01 08:00:00" Db.empty) rfl).1⟩

/-! ## Registration -/

/-- A validation chain reports nothing exactly when its check passes. -/
theorem check_eq_nil (ok : Bool) (field msg : String) (value : Option String) :
    check ok field msg value = [] ↔ ok = true := by
  cases ok <;> simp [check]

/-- Validation of a registration passes exactly when the three checks pass. -/
theorem registerErrors_eq_nil (lib : Lib) (body : RegisterBody) :
    registerErrors lib body = [] ↔
      hasMinLength 3 body.username = true ∧ validEmail lib body.email = true ∧
        hasMinLength 6 body.password = true := by
  simp [registerErrors, check_eq_nil, and_assoc]

/-- The count of `isLength` is at most the number of code points. -/
theorem isLengthCount_le (str : String) : isLengthCount str ≤ str.length := by
  show (str.data.filter (fun c => !isVariationSelector c)).length ≤ str.data.length
  exact List.length_filter_le _ _

/-- A field of positive minimal length that passes `isLength` is present. -/
theorem hasMinLength_present (min : Nat) (value : Option String) (hmin : 0 < min)
    (h : hasMinLength min value = true) : ∃ s, value = some s ∧ min ≤ isLengthCount s := by
  cases value with
  | none =>
    have h0 : isLengthCount "" = 0 := rfl
    simp only [hasMinLength, Option.getD_none, h0, decide_eq_true_eq] at h
    omega
  | some s => exact ⟨s, rfl, by simpa [hasMinLength] using h⟩

/-- An email that passes `isEmail` is present. -/
theorem validEmail_present (lib : Lib) (value : Option String) (h : validEmail lib value = true) :
    ∃ e, value = some e ∧ lib.isEmail e = true := by
  cases value with
  | none => simp [validEmail] at h
  | some e => exact ⟨e, rfl, by simpa [validEmail] using h⟩

/-- An insert with a store-assigned id, a username and an email that no row
holds appends the row and assigns the next id. -/
theorem insertUser_fresh (db : Db) (u e p now : String)
    (hfree : db.userByEmailOrUsername e u = none) :
    db.insertUser none (some u) (some e) (some p) now
      = .ok (nextId db.usersSeq (db.users.map (·.id)),
          { db with
            users := db.users ++ [⟨nextId db.usersSeq (db.users.map (·.id)), u, e, p, none, now⟩]
            usersSeq := nextId db.usersSeq (db.users.map (·.id)) }) := by
  have hlt : ∀ r ∈ db.users, r.id < nextId db.usersSeq (db.users.map (·.id)) :=
    fun r hr => lt_nextId _ _ r.id (List.mem_map_of_mem _ hr)
  have hseq : db.usersSeq ≤ nextId db.usersSeq (db.users.map (·.id)) :=
    Nat.le_succ_of_le (le_foldl_max _ _).1
  rw [Db.userByEmailOrUsername, List.find?_eq_none] at hfree
  have hid : db.users.any (fun r => r.id == nextId db.usersSeq (db.users.map (·.id))) = false := by
    rw [List.any_eq_false]
    intro r hr
    have := hlt r hr
    simp only [beq_iff_eq]
    omega
  have hname : db.users.any (fun r => r.username == u) = false := by
    rw [List.any_eq_false]
    intro r hr
    have := hfree r hr
    simp only [Bool.or_eq_true, beq_iff_eq, not_or] at this
    simpa using this.2
  have hmail : db.users.any (fun r => r.email == e) = false := by
    rw [List.any_eq_false]
    intro r hr
    have := hfree r hr
    simp only [Bool.or_eq_true, beq_iff_eq, not_or] at this
    simpa using this.1
  have hbelow : db.users.filter (fun r => r.id < nextId db.usersSeq (db.users.map (·.id)))
      = db.users := by
    rw [List.filter_eq_self]
    intro r hr
    simpa using hlt r hr
  have habove : db.users.filter (fun r => nextId db.usersSeq (db.users.map (·.id)) < r.id)
      = [] := by
    rw [List.filter_eq_nil_iff]
    intro r hr
    have := hlt r hr
    simp only [decide_eq_true_eq]
    omega
  simp only [Db.insertUser, Option.getD_none, hid, hname, hmail, hbelow, habove,
    Nat.max_eq_right hseq]
  rfl

/-- A registration that passes validation, finds neither its email nor its
username in the store and meets no store failure is answered 200 with
`{ token, user }` and appends one user row. -/
theorem register_fresh (lib : Lib) (env : Env) (body : RegisterBody) (db : Db)
    (hvalid : registerErrors lib body = [])
    (hfree : ∀ r ∈ db.users, some r.email ≠ body.email ∧ some r.username ≠ body.username)
    (hf1 : env.fault1 = none) (hf2 : env.fault2 = none) :
    ∃ row : UserRow,
      (register lib env body db).response = ⟨200, authBody lib row.id row.username row.email⟩ ∧
      (register lib env body db).db
        = { db with users := db.users ++ [row], usersSeq := row.id } ∧
      some row.username = body.username ∧ some row.email = body.email ∧
      row.id = nextId db.usersSeq (db.users.map (·.id)) ∧
      row.password = lib.hash (body.password.getD "") env.salt := by
  obtain ⟨hu, he, hp⟩ := (registerErrors_eq_nil lib body).mp hvalid
  obtain ⟨u, hu', _⟩ := hasMinLength_present 3 _ (by decide) hu
  obtain ⟨e, he', _⟩ := validEmail_present lib _ he
  obtain ⟨p, hp', _⟩ := hasMinLength_present 6 _ (by decide) hp
  have hnone : db.userByEmailOrUsername e u = none := by
    rw [Db.userByEmailOrUsername, List.find?_eq_none]
    intro r hr
    have := hfree r hr
    rw [he', hu'] at this
    simpa using this
  refine ⟨⟨nextId db.usersSeq (db.users.map (·.id)), u, e, lib.hash p env.salt, none, env.now⟩,
    ?_, ?_, hu'.symm, he'.symm, rfl, by simp [hp']⟩
  · simp [register, hvalid, hu', he', hp', hf1, hf2, withFault, hnone, insertUser_fresh]
  · simp [register, hvalid, hu', he', hp', hf1, hf2, withFault, hnone, insertUser_fresh]

/-- A registration that passes validation while a row of the store holds its
email or its username is answered 400 `User already exists` and leaves the
store as it is. -/
theorem register_conflict (lib : Lib) (env : Env) (body : RegisterBody) (db : Db)
    (hvalid : registerErrors lib body = [])
    (htaken : ∃ r ∈ db.users, some r.email = body.email ∨ some r.username = body.username)
    (hf1 : env.fault1 = none) :
    (register lib env body db).response = ⟨400, errorBody "User already exists"⟩ ∧
      (register lib env body db).db = db := by
  obtain ⟨hu, he, _⟩ := (registerErrors_eq_nil lib body).mp hvalid
  obtain ⟨u, hu', _⟩ := hasMinLength_present 3 _ (by decide) hu
  obtain ⟨e, he', _⟩ := validEmail_present lib _ he
  obtain ⟨r, hr, hshare⟩ := htaken
  have hsome : (db.userByEmailOrUsername e u).isSome = true := by
    rw [Db.userByEmailOrUsername, List.find?_isSome]
    refine ⟨r, hr, ?_⟩
    rw [he', hu'] at hshare
    simpa using hshare
  obtain ⟨found, hfound⟩ := Option.isSome_iff_exists.mp hsome
  constructor <;> simp [register, hvalid, hu', he', hf1, withFault, hfound]

/-- Two valid registrations that share an email or a username, served one after
the other on a store that holds neither: the first is answered 200 with
`{ token, user }` and appends one row, the second is answered 400 `User already
exists` and changes nothing. -/
theorem register_then_conflict (lib : Lib) (env1 env2 : Env) (first second : RegisterBody)
    (db : Db) (hv1 : registerErrors lib first = []) (hv2 : registerErrors lib second = [])
    (hshare : first.email = second.email ∨ first.username = second.username)
    (hfree : ∀ r ∈ db.users, some r.email ≠ first.email ∧ some r.username ≠ first.username)
    (hcalm : env1.fault1 = none ∧ env1.fault2 = none ∧ env2.fault1 = none) :
    (register lib env1 first db).response.status = 200 ∧
      (register lib env1 first db).response.body.keys = ["token", "user"] ∧
      (∃ row : UserRow, (register lib env1 first db).db.users = db.users ++ [row] ∧
        some row.username = first.username ∧ some row.email = first.email) ∧
      (register lib env2 second (register lib env1 first db).db).response
        = ⟨400, errorBody "User already exists"⟩ ∧
      (register lib env2 second (register lib env1 first db).db).db
        = (register lib env1 first db).db := by
  obtain ⟨row, hresp, hdb, hu, he, _, _⟩ :=
    register_fresh lib env1 first db hv1 hfree hcalm.1 hcalm.2.1
  have htaken : ∃ r ∈ (register lib env1 first db).db.users,
      some r.email = second.email ∨ some r.username = second.username := by
    refine ⟨row, by simp [hdb], ?_⟩
    rcases hshare with h | h
    · exact Or.inl (he.trans h)
    · exact Or.inr (hu.trans h)
  obtain ⟨h400, hsame⟩ :=
    register_conflict lib env2 second (register lib env1 first db).db hv2 htaken hcalm.2.2
  refine ⟨by rw [hresp], by rw [hresp]; rfl, ⟨row, by rw [hdb], hu, he⟩, h400, hsame⟩

/-- C5: two registrations that pass validation and share an email or a
username, served one after the other (in either order, without store failure)
on a store that holds neither: the first is answered 200 with `{ token, user }`
and adds one user row, the second is answered 400 `User already exists` and
adds none. -/
theorem register_twice_conflict (lib : Lib) (env1 env2 : Env) (r1 r2 : RegisterBody) (db : Db)
    (hv1 : registerErrors lib r1 = []) (hv2 : registerErrors lib r2 = [])
    (hshare : r1.email = r2.email ∨ r1.username = r2.username)
    (hfree : ∀ r ∈ db.users, ∀ b ∈ [r1, r2], some r.email ≠ b.email ∧ some r.username ≠ b.username)
    (hcalm : env1.fault1 = none ∧ env1.fault2 = none ∧ env2.fault1 = none) :
    ∀ first second : RegisterBody,
      (first = r1 ∧ second = r2) ∨ (first = r2 ∧ second = r1) →
      (register lib env1 first db).response.status = 200 ∧
        (register lib env1 first db).response.body.keys = ["token", "user"] ∧
        (∃ row : UserRow, (register lib env1 first db).db.users = db.users ++ [row] ∧
          some row.username = first.username ∧ some row.email = first.email) ∧
        (register lib env2 second (register lib env1 first db).db).response
          = ⟨400, errorBody "User already exists"⟩ ∧
        (register lib env2 second (register lib env1 first db).db).db
          = (register lib env1 first db).db := by
  intro first second horder
  rcases horder with ⟨rfl, rfl⟩ | ⟨rfl, rfl⟩
  · exact register_then_conflict lib env1 env2 first second db hv1 hv2 hshare
      (fun r hr => hfree r hr first (by simp)) hcalm
  · exact register_then_conflict lib env1 env2 first second db hv2 hv1
      (hshare.imp Eq.symm Eq.symm) (fun r hr => hfree r hr first (by simp)) hcalm

/-! ## Login -/

/-- With unique emails, the row `SELECT ... WHERE email = ?` returns is the row
of the store that has this email. -/
theorem userByEmail_eq_some (db : Db) (email : String) (u : UserRow)
    (huniq : db.users.Pairwise (fun a b => a.email ≠ b.email)) :
    db.userByEmail email = some u ↔ u ∈ db.users ∧ u.email = email := by
  constructor
  · intro h
    exact ⟨List.mem_of_find?_eq_some h, by simpa using List.find?_some h⟩
  · rintro ⟨hu, he⟩
    cases hfind : db.userByEmail email with
    | none =>
      rw [Db.userByEmail, List.find?_eq_none] at hfind
      exact absurd (by simpa using he) (hfind u hu)
    | some found =>
      have hmem : found ∈ db.users := List.mem_of_find?_eq_some hfind
      have hmail : found.email = email := by simpa using List.find?_some hfind
      by_cases hne : found = u
      · rw [hne]
      · exact absurd (hmail.trans he.symm)
          (huniq.forall (fun _ _ h => Ne.symm h) hmem hu hne)

/-- C6: a login with a well-formed email and a present password, without store
failure, on a store whose emails are unique, is answered 200 exactly when a
user row with that email exists and the password matches the row's stored hash;
the answer is then `{ token, user }` of that row; in every other case, be it
that no row has the email or that the password does not match, the answer is
the same 400 `Invalid credentials`. The store is never changed. -/
theorem login_success_iff (lib : Lib) (env : Env) (email password : String) (db : Db)
    (hemail : lib.isEmail email = true) (hfault : env.fault1 = none)
    (huniq : db.users.Pairwise (fun a b => a.email ≠ b.email)) :
    ((login lib env ⟨some email, some password⟩ db).response.status = 200 ↔
        ∃ u ∈ db.users, u.email = email ∧ lib.compare password u.password = true) ∧
      (∀ u ∈ db.users, u.email = email → lib.compare password u.password = true →
        (login lib env ⟨some email, some password⟩ db).response
          = ⟨200, authBody lib u.id u.username u.email⟩) ∧
      ((¬ ∃ u ∈ db.users, u.email = email ∧ lib.compare password u.password = true) →
        (login lib env ⟨some email, some password⟩ db).response
          = ⟨400, errorBody "Invalid credentials"⟩) ∧
      (login lib env ⟨some email, some password⟩ db).db = db := by
  have hvalid : loginErrors lib ⟨some email, some password⟩ = [] := by
    simp [loginErrors, check, validEmail, hemail]
  cases hfind : db.userByEmail email with
  | none =>
    have hno : ∀ u ∈ db.users, ¬ u.email = email := by
      intro u hu he
      have := (userByEmail_eq_some db email u huniq).mpr ⟨hu, he⟩
      rw [hfind] at this
      exact Option.noConfusion this
    have hresp : (login lib env ⟨some email, some password⟩ db).response
        = ⟨400, errorBody "Invalid credentials"⟩ := by
      simp [login, hvalid, hfault, withFault, hfind]
    refine ⟨?_, ?_, fun _ => hresp, by simp [login, hvalid, hfault, withFault, hfind]⟩
    · rw [hresp]
      constructor
      · intro h; exact absurd h (by decide)
      · rintro ⟨u, hu, he, _⟩; exact absurd he (hno u hu)
    · intro u hu he _
      exact absurd he (hno u hu)
  | some found =>
    obtain ⟨hmem, hmail⟩ := (userByEmail_eq_some db email found huniq).mp hfind
    have hsame : ∀ u ∈ db.users, u.email = email → u = found := by
      intro u hu he
      have := (userByEmail_eq_some db email u huniq).mpr ⟨hu, he⟩
      rw [hfind] at this
      exact (Option.some.inj this).symm
    cases hcmp : lib.compare password found.password with
    | true =>
      have hresp : (login lib env ⟨some email, some password⟩ db).response
          = ⟨200, authBody lib found.id found.username found.email⟩ := by
        simp [login, hvalid, hfault, withFault, hfind, hcmp]
      refine ⟨?_, ?_, ?_, by simp [login, hvalid, hfault, withFault, hfind, hcmp]⟩
      · rw [hresp]
        exact ⟨fun _ => ⟨found, hmem, hmail, hcmp⟩, fun _ => rfl⟩
      · intro u hu he _
        rw [hsame u hu he]
        exact hresp
      · intro hnot
        exact absurd ⟨found, hmem, hmail, hcmp⟩ hnot
    | false =>
      have hresp : (login lib env ⟨some email, some password⟩ db).response
          = ⟨400, errorBody "Invalid credentials"⟩ := by
        simp [login, hvalid, hfault, withFault, hfind, hcmp]
      refine ⟨?_, ?_, fun _ => hresp, by simp [login, hvalid, hfault, withFault, hfind, hcmp]⟩
      · rw [hresp]
        constructor
        · intro h; exact absurd h (by decide)
        · rintro ⟨u, hu, he, hc⟩
          rw [hsame u hu he, hcmp] at hc
          exact absurd hc (by decide)
      · intro u hu he hc
        rw [hsame u hu he, hcmp] at hc
        exact absurd hc (by decide)

/-- C5, at concrete requests: `alice` and then `alicia` with the same email, on
the fresh store. -/
theorem register_twice_conflict_witness :
    registerErrors demoLib demoAlice = [] ∧ registerErrors demoLib demoAlicia = [] ∧
      (demoAlice.email = demoAlicia.email ∨ demoAlice.username = demoAlicia.username) ∧
      (register demoLib (calm "2026-01-01 10:00:00") demoAlice Db.empty).response.status = 200 ∧
      (register demoLib (calm "2026-01-01 10:00:05") demoAlicia
          (register demoLib (calm "2026-01-01 10:00:00") demoAlice Db.empty).db).response
        = ⟨400, errorBody "User already exists"⟩ :=
  have hv1 : registerErrors demoLib demoAlice = [] :=
    (registerErrors_eq_nil _ _).mpr ⟨by decide, by decide, by decide⟩
  have hv2 : registerErrors demoLib demoAlicia = [] :=
    (registerErrors_eq_nil _ _).mpr ⟨by decide, by decide, by decide⟩
  have h := register_twice_conflict demoLib (calm "2026-01-01 10:00:00")
    (calm "2026-01-01 10:00:05") demoAlice demoAlicia Db.empty hv1 hv2 (Or.inl rfl)
    (by intro r hr; exact absurd hr (List.not_mem_nil r)) ⟨rfl, rfl, rfl⟩
    demoAlice demoAlicia (Or.inl ⟨rfl, rfl⟩)
  ⟨hv1, hv2, Or.inl rfl, h.1, h.2.2.2.1⟩

/-- C6, at a concrete request: `alice` logs in with her password. -/
theorem login_success_iff_witness :
    demoLib.isEmail "alice@x.com" = true ∧
      demoUsers.users.Pairwise (fun a b => a.email ≠ b.email) ∧
      ((login demoLib (calm "2026-01-01 10:00:00") ⟨some "alice@x.com", some "secret1"⟩
          demoUsers).response.status = 200 ↔
        ∃ u ∈ demoUsers.users, u.email = "alice@x.com" ∧
          demoLib.compare "secret1" u.password = true) :=
  ⟨by decide, by decide,
    (login_success_iff demoLib (calm "2026-01-01 10:00:00") "alice@x.com" "secret1" demoUsers
      (by decide) rfl (by decide)).1⟩

/-! ## Validation of a registration -/

/-- A registration with a failing validation chain is rejected at validation. -/
theorem register_rejected (lib : Lib) (env : Env) (body : RegisterBody) (db : Db)
    (hbad : hasMinLength 3 body.username = false ∨ validEmail lib body.email = false ∨
      hasMinLength 6 body.password = false) :
    RejectedAtValidation (register lib env body db) db := by
  cases herr : registerErrors lib body with
  | nil =>
    obtain ⟨hu, he, hp⟩ := (registerErrors_eq_nil lib body).mp herr
    rcases hbad with h | h | h
    · rw [hu] at h; exact absurd h (by decide)
    · rw [he] at h; exact absurd h (by decide)
    · rw [hp] at h; exact absurd h (by decide)
  | cons e es =>
    exact ⟨⟨e :: es, List.cons_ne_nil _ _, by simp [register, herr]⟩,
      by simp [register, herr], by simp [register, herr]⟩

/-- C7, as stated, fails: the username `a`, `b`, U+FE0F has three characters,
the email is well-formed and the password has seven characters, yet the
registration is answered 400 with validation errors and no store call is made. -/
theorem register_three_characters_rejected :
    (demoSelector.username.getD "").length = 3 ∧
      (demoSelector.username.getD "").toList = ['a', 'b', Char.ofNat 0xFE0F] ∧
      validEmail demoLib demoSelector.email = true ∧
      (demoSelector.password.getD "").length = 7 ∧
      (register demoLib (calm "2026-01-01 10:00:00") demoSelector Db.empty).response.status
        = 400 ∧
      (register demoLib (calm "2026-01-01 10:00:00") demoSelector
        Db.empty).response.body.keys = ["errors"] ∧
      (register demoLib (calm "2026-01-01 10:00:00") demoSelector Db.empty).calls = [] := by
  decide

/-- C7, amended: with characters counted as validator.js `isLength` counts them
(code points, the variation selectors U+FE0F and U+FE0E left out), a
registration whose username has fewer than 3 characters, whose email is
malformed or whose password has fewer than 6 characters (an absent field
counting as empty) is answered 400 with a non-empty list of validation errors,
without any store call and without change of the store, and so is in particular
every registration whose username has fewer than 3 or whose password fewer than
6 code points; a registration that meets the three conditions under that count
is not answered with validation errors and its first store call is the lookup
by email or username. -/
theorem register_validation (lib : Lib) (env : Env) (body : RegisterBody) (db : Db) :
    ((isLengthCount (body.username.getD "") < 3 ∨ validEmail lib body.email = false ∨
          isLengthCount (body.password.getD "") < 6) →
        RejectedAtValidation (register lib env body db) db) ∧
      (((body.username.getD "").length < 3 ∨ (body.password.getD "").length < 6) →
        RejectedAtValidation (register lib env body db) db) ∧
      ((3 ≤ isLengthCount (body.username.getD "") ∧ validEmail lib body.email = true ∧
          6 ≤ isLengthCount (body.password.getD "")) →
        (register lib env body db).calls.head? = some .selectUserByEmailOrUsername ∧
        (register lib env body db).response.body.keys ≠ ["errors"]) := by
  refine ⟨?_, ?_, ?_⟩
  · intro hbad
    apply register_rejected
    rcases hbad with h | h | h
    · exact Or.inl (by simpa [hasMinLength] using h)
    · exact Or.inr (Or.inl h)
    · exact Or.inr (Or.inr (by simpa [hasMinLength] using h))
  · intro hbad
    apply register_rejected
    rcases hbad with h | h
    · have := isLengthCount_le (body.username.getD "")
      exact Or.inl (by simp only [hasMinLength, decide_eq_false_iff_not]; omega)
    · have := isLengthCount_le (body.password.getD "")
      exact Or.inr (Or.inr (by simp only [hasMinLength, decide_eq_false_iff_not]; omega))
  · rintro ⟨hu, he, hp⟩
    have hvalid : registerErrors lib body = [] :=
      (registerErrors_eq_nil lib body).mpr
        ⟨by simpa [hasMinLength] using hu, he, by simpa [hasMinLength] using hp⟩
    cases hf1 : env.fault1 with
    | some e1 => simp [register, hvalid, hf1, withFault, errorBody, Json.keys]
    | none =>
      cases hfind : db.userByEmailOrUsername (body.email.getD "") (body.username.getD "") with
      | some found => simp [register, hvalid, hf1, withFault, hfind, errorBody, Json.keys]
      | none =>
        cases hf2 : env.fault2 with
        | some e2 => simp [register, hvalid, hf1, hf2, withFault, hfind, errorBody, Json.keys]
        | none =>
          cases hins : db.insertUser none (some (body.username.getD ""))
              (some (body.email.getD "")) (some (lib.hash (body.password.getD "") env.salt))
              env.now with
          | error e2 =>
            simp [register, hvalid, hf1, hf2, withFault, hfind, hins, errorBody, Json.keys]
          | ok res =>
            simp [register, hvalid, hf1, hf2, withFault, hfind, hins, authBody, Json.keys]

/-! ## Startup run twice -/

/-- On the fresh store the startup block leaves six messages. -/
theorem bootstrap_once_length (now : String) : (bootstrap now Db.empty).messages.length = 6 :=
  rfl

/-- Run twice on the fresh store, the startup block leaves twelve messages. -/
theorem bootstrap_twice_length (now later : String) :
    (bootstrap later (bootstrap now Db.empty)).messages.length = 12 :=
  rfl

/-- The second run of the startup block adds no group. -/
theorem bootstrap_twice_groups (now later : String) :
    (bootstrap later (bootstrap now Db.empty)).groups = (bootstrap now Db.empty).groups := by
  simp [bootstrap, createTables, orIgnore, Db.raiseSeq, Db.insertGroup, Db.insertUser, Db.empty,
    nextId,
    insertSample, sampleMessages, Db.insertMessage]

/-- The second run of the startup block adds no user. -/
theorem bootstrap_twice_users (now later : String) :
    (bootstrap later (bootstrap now Db.empty)).users = (bootstrap now Db.empty).users := by
  simp [bootstrap, createTables, orIgnore, Db.raiseSeq, Db.insertGroup, Db.insertUser, Db.empty,
    nextId,
    insertSample, sampleMessages, Db.insertMessage]

/-- C8 fails on the code: on the fresh store the startup block leaves six
messages, and run a second time it leaves twelve, so the store after two runs
differs from the store after one; the group and the (empty) user table are the
same after both runs. -/
theorem bootstrap_twice_duplicates_messages (now later : String) :
    (bootstrap now Db.empty).messages.length = 6 ∧
      (bootstrap later (bootstrap now Db.empty)).messages.length = 12 ∧
      (bootstrap later (bootstrap now Db.empty)).groups = (bootstrap now Db.empty).groups ∧
      (bootstrap later (bootstrap now Db.empty)).users = (bootstrap now Db.empty).users ∧
      bootstrap later (bootstrap now Db.empty) ≠ bootstrap now Db.empty := by
  refine ⟨bootstrap_once_length now, bootstrap_twice_length now later,
    bootstrap_twice_groups now later, bootstrap_twice_users now later, ?_⟩
  intro h
  have h12 := bootstrap_twice_length now later
  rw [h, bootstrap_once_length] at h12
  exact absurd h12 (by decide)

/-! ## Store failures -/

/-- C9 fails on the code: when the store call fails, the handlers of the group
and message routes answer 500 with the store's own error message as the body,
so two failures that differ in their message give different responses. -/
theorem store_failure_exposes_message (lib : Lib) (message : String) (groupId : SqlValue)
    (db : Db) :
    (handle lib (failing message) (.getMessages groupId) db).response
        = ⟨500, errorBody message⟩ ∧
      (handle lib (failing message) (.getGroup groupId) db).response
        = ⟨500, errorBody message⟩ ∧
      (handle lib (failing message) .getGroups db).response = ⟨500, errorBody message⟩ ∧
      (handle demoLib (failing message) (.postMessage (some "alice") groupId ⟨some "hi", []⟩)
        db).response = ⟨500, errorBody message⟩ ∧
      (handle lib (failing "SQLITE_BUSY: database is locked") (.getMessages groupId) db).response
        ≠ (handle lib (failing "SQLITE_IOERR: disk I/O error") (.getMessages groupId)
            db).response := by
  refine ⟨rfl, rfl, rfl, rfl, ?_⟩
  simp [handle, getMessages, failing, withFault, errorBody]

/-! ## What a successful register or login returns -/

/-- A registration answered 200 passed validation, found no row with its email
or username, and appended its row under the next id. -/
theorem register_ok (lib : Lib) (env : Env) (body : RegisterBody) (db : Db)
    (hok : (register lib env body db).response.status = 200) :
    ∃ row : UserRow,
      (register lib env body db).response = ⟨200, authBody lib row.id row.username row.email⟩ ∧
      (register lib env body db).db.users = db.users ++ [row] ∧
      row.id = nextId db.usersSeq (db.users.map (·.id)) ∧
      some row.username = body.username ∧ some row.email = body.email ∧
      row.password = lib.hash (body.password.getD "") env.salt := by
  cases hvalid : registerErrors lib body with
  | cons e es => simp [register, hvalid] at hok
  | nil =>
    cases hf1 : env.fault1 with
    | some e1 => simp [register, hvalid, hf1, withFault] at hok
    | none =>
      cases hfind : db.userByEmailOrUsername (body.email.getD "") (body.username.getD "") with
      | some found => simp [register, hvalid, hf1, withFault, hfind] at hok
      | none =>
        cases hf2 : env.fault2 with
        | some e2 => simp [register, hvalid, hf1, hf2, withFault, hfind] at hok
        | none =>
          have hfree : ∀ r ∈ db.users,
              some r.email ≠ body.email ∧ some r.username ≠ body.username := by
            obtain ⟨hu, he, _⟩ := (registerErrors_eq_nil lib body).mp hvalid
            obtain ⟨u, hu', _⟩ := hasMinLength_present 3 _ (by decide) hu
            obtain ⟨e, he', _⟩ := validEmail_present lib _ he
            rw [Db.userByEmailOrUsername, List.find?_eq_none] at hfind
            intro r hr
            have := hfind r hr
            rw [he', hu'] at this ⊢
            simpa using this
          obtain ⟨row, hresp, hdb, hu, he, hid, hpw⟩ :=
            register_fresh lib env body db hvalid hfree hf1 hf2
          exact ⟨row, hresp, by rw [hdb], hid, hu, he, hpw⟩

/-- A login answered 200 found a row with the email of the request and answers
with the fields of that row. -/
theorem login_ok (lib : Lib) (env : Env) (body : LoginBody) (db : Db)
    (hok : (login lib env body db).response.status = 200) :
    ∃ row ∈ db.users, some row.email = body.email ∧
      (login lib env body db).response = ⟨200, authBody lib row.id row.username row.email⟩ := by
  cases hvalid : loginErrors lib body with
  | cons e es => simp [login, hvalid] at hok
  | nil =>
    have hmail : validEmail lib body.email = true := by
      have h := hvalid
      simp only [loginErrors, List.append_eq_nil, check_eq_nil] at h
      exact h.1
    obtain ⟨e, he, _⟩ := validEmail_present lib _ hmail
    cases hf1 : env.fault1 with
    | some e1 => simp [login, hvalid, hf1, withFault] at hok
    | none =>
      cases hfind : db.userByEmail (body.email.getD "") with
      | none => simp [login, hvalid, hf1, withFault, hfind] at hok
      | some found =>
        cases hcmp : lib.compare (body.password.getD "") found.password with
        | false => simp [login, hvalid, hf1, withFault, hfind, hcmp] at hok
        | true =>
          refine ⟨found, List.mem_of_find?_eq_some hfind, ?_, ?_⟩
          · have := List.find?_some hfind
            rw [he] at this ⊢
            simpa using this
          · simp [login, hvalid, hf1, withFault, hfind, hcmp]

/-- C10: a register or login answered 200 has the body
`{ token, user: { id, username, email } }`, where the three values are those of
a stored user row (for register the row just appended, under the id the store
assigned), the token is signed over the payload `{ user: { id, username,
email } }` with the same three values and the expiry `24h`, and no other field
(no password, no hash) occurs in the body or in the payload. -/
theorem auth_success_body (lib : Lib) (env : Env) (rbody : RegisterBody) (lbody : LoginBody)
    (db : Db) :
    ((register lib env rbody db).response.status = 200 →
        ∃ row : UserRow, (register lib env rbody db).db.users = db.users ++ [row] ∧
          row.id = nextId db.usersSeq (db.users.map (·.id)) ∧
          some row.username = rbody.username ∧ some row.email = rbody.email ∧
          (register lib env rbody db).response.body
            = .obj [("token", .str (lib.sign
                  (.obj [("user", .obj [("id", .num row.id), ("username", .str row.username),
                    ("email", .str row.email)])]) lib.JWT_SECRET "24h")),
                ("user", .obj [("id", .num row.id), ("username", .str row.username),
                  ("email", .str row.email)])]) ∧
      ((login lib env lbody db).response.status = 200 →
        ∃ row ∈ db.users, some row.email = lbody.email ∧
          (login lib env lbody db).response.body
            = .obj [("token", .str (lib.sign
                  (.obj [("user", .obj [("id", .num row.id), ("username", .str row.username),
                    ("email", .str row.email)])]) lib.JWT_SECRET "24h")),
                ("user", .obj [("id", .num row.id), ("username", .str row.username),
                  ("email", .str row.email)])]) ∧
      (∀ out ∈ [register lib env rbody db, login lib env lbody db],
        out.response.status = 200 →
          out.response.body.keys = ["token", "user"] ∧
          (out.response.body.get "user").keys = ["id", "username", "email"]) := by
  refine ⟨?_, ?_, ?_⟩
  · intro hok
    obtain ⟨row, hresp, hdb, hid, hu, he, _⟩ := register_ok lib env rbody db hok
    exact ⟨row, hdb, hid, hu, he, by rw [hresp]; rfl⟩
  · intro hok
    obtain ⟨row, hmem, he, hresp⟩ := login_ok lib env lbody db hok
    exact ⟨row, hmem, he, by rw [hresp]; rfl⟩
  · intro out hout hok
    simp only [List.mem_cons, List.mem_singleton, List.not_mem_nil, or_false] at hout
    rcases hout with rfl | rfl
    · obtain ⟨row, hresp, _⟩ := register_ok lib env rbody db hok
      rw [hresp]
      simp [authBody, userJson, Json.keys, Json.get]
    · obtain ⟨row, _, _, hresp⟩ := login_ok lib env lbody db hok
      rw [hresp]
      simp [authBody, userJson, Json.keys, Json.get]

/-- C7, amended, at concrete requests: a username of two characters is rejected
without a store call; the registration of `alice` reaches the lookup. -/
theorem register_validation_witness :
    RejectedAtValidation
        (register demoLib (calm "2026-01-01 10:00:00")
          ⟨some "al", some "alice@x.com", some "secret1"⟩ Db.empty) Db.empty ∧
      (register demoLib (calm "2026-01-01 10:00:00") demoAlice Db.empty).calls.head?
        = some .selectUserByEmailOrUsername :=
  ⟨(register_validation demoLib (calm "2026-01-01 10:00:00")
      ⟨some "al", some "alice@x.com", some "secret1"⟩ Db.empty).1 (Or.inl (by decide)),
    ((register_validation demoLib (calm "2026-01-01 10:00:00") demoAlice Db.empty).2.2
      ⟨by decide, by decide, by decide⟩).1⟩

/-- C10, at concrete requests: `alice` registers on the fresh store, and logs
in on the store that holds her row. -/
theorem auth_success_body_witness :
    (register demoLib (calm "2026-01-01 10:00:00") demoAlice Db.empty).response.status = 200 ∧
      (login demoLib (calm "2026-01-01 10:00:00") ⟨some "alice@x.com", some "secret1"⟩
        demoUsers).response.status = 200 ∧
      (∃ row ∈ demoUsers.users, some row.email = some "alice@x.com" ∧
        (login demoLib (calm "2026-01-01 10:00:00") ⟨some "alice@x.com", some "secret1"⟩
            demoUsers).response.body
          = .obj [("token", .str (demoLib.sign
                (.obj [("user", .obj [("id", .num row.id), ("username", .str row.username),
                  ("email", .str row.email)])]) demoLib.JWT_SECRET "24h")),
              ("user", .obj [("id", .num row.id), ("username", .str row.username),
                ("email", .str row.email)])]) ∧
      (register demoLib (calm "2026-01-01 10:00:00") demoAlice Db.empty).response.body.keys
        = ["token", "user"] :=
  have hreg : (register demoLib (calm "2026-01-01 10:00:00") demoAlice
      Db.empty).response.status = 200 := by decide
  have hlog : (login demoLib (calm "2026-01-01 10:00:00") ⟨some "alice@x.com", some "secret1"⟩
      demoUsers).response.status = 200 := by decide
  have h := auth_success_body demoLib (calm "2026-01-01 10:00:00") demoAlice
    ⟨some "alice@x.com", some "secret1"⟩ demoUsers
  have h0 := auth_success_body demoLib (calm "2026-01-01 10:00:00") demoAlice
    ⟨some "alice@x.com", some "secret1"⟩ Db.empty
  ⟨hreg, hlog, h.2.1 hlog, (h0.2.2 _ (List.mem_cons_self _ _) hreg).1⟩

/-! ## Uniqueness of emails and usernames -/

/-- A registration leaves `users` as it is or appends one row whose email and
username no earlier row has. -/
theorem register_users (lib : Lib) (env : Env) (body : RegisterBody) (db : Db) :
    (register lib env body db).db.users = db.users ∨
      ∃ row : UserRow, (register lib env body db).db.users = db.users ++ [row] ∧
        ∀ r ∈ db.users, r.email ≠ row.email ∧ r.username ≠ row.username := by
  cases hvalid : registerErrors lib body with
  | cons e es => exact Or.inl (by simp [register, hvalid])
  | nil =>
    cases hf1 : env.fault1 with
    | some e1 => exact Or.inl (by simp [register, hvalid, hf1, withFault])
    | none =>
      cases hfind : db.userByEmailOrUsername (body.email.getD "") (body.username.getD "") with
      | some found => exact Or.inl (by simp [register, hvalid, hf1, withFault, hfind])
      | none =>
        cases hf2 : env.fault2 with
        | some e2 => exact Or.inl (by simp [register, hvalid, hf1, hf2, withFault, hfind])
        | none =>
          refine Or.inr ⟨⟨nextId db.usersSeq (db.users.map (·.id)), body.username.getD "",
            body.email.getD "", lib.hash (body.password.getD "") env.salt, none, env.now⟩,
            ?_, ?_⟩
          · simp [register, hvalid, hf1, hf2, withFault, hfind, insertUser_fresh]
          · rw [Db.userByEmailOrUsername, List.find?_eq_none] at hfind
            intro r hr
            simpa using hfind r hr

/-- A post never touches `users`. -/
theorem postMessage_users (lib : Lib) (env : Env) (authorization : Option String)
    (groupId : SqlValue) (body : PostBody) (db : Db) :
    (postMessage lib env authorization groupId body db).db.users = db.users := by
  cases hv : lib.verifyToken authorization with
  | none => simp [postMessage, authMiddleware, hv]
  | some p =>
    cases hm : body.message with
    | none => simp [postMessage, authMiddleware, hv, hm, isFalsy]
    | some m =>
      by_cases hempty : m = ""
      · simp [postMessage, authMiddleware, hv, hm, isFalsy, hempty]
      · cases hf1 : env.fault1 <;> cases hf2 : env.fault2 <;>
          simp [postMessage, authMiddleware, hv, hm, isFalsy, hempty, hf1, hf2, withFault,
            Db.insertMessage]

/-- A request leaves `users` as it is or appends one row whose email and
username no earlier row has. -/
theorem handle_users (lib : Lib) (env : Env) (req : Request) (db : Db) :
    (handle lib env req db).db.users = db.users ∨
      ∃ row : UserRow, (handle lib env req db).db.users = db.users ++ [row] ∧
        ∀ r ∈ db.users, r.email ≠ row.email ∧ r.username ≠ row.username := by
  cases req with
  | register body => exact register_users lib env body db
  | login body =>
    refine Or.inl ?_
    cases hvalid : loginErrors lib body with
    | cons e es => simp [handle, login, hvalid]
    | nil =>
      cases hf1 : env.fault1 with
      | some e1 => simp [handle, login, hvalid, hf1, withFault]
      | none =>
        cases hfind : db.userByEmail (body.email.getD "") with
        | none => simp [handle, login, hvalid, hf1, withFault, hfind]
        | some found =>
          cases hcmp : lib.compare (body.password.getD "") found.password <;>
            simp [handle, login, hvalid, hf1, withFault, hfind, hcmp]
  | me authorization =>
    refine Or.inl ?_
    cases hv : lib.verifyToken authorization <;> cases hf1 : env.fault1 <;>
      simp [handle, me, authMiddleware, hv, hf1, withFault]
  | getMessages groupId =>
    exact Or.inl (by cases hf1 : env.fault1 <;> simp [handle, getMessages, hf1, withFault])
  | getGroup groupId =>
    exact Or.inl (by cases hf1 : env.fault1 <;> simp [handle, getGroup, hf1, withFault])
  | postMessage authorization groupId body =>
    exact Or.inl (postMessage_users lib env authorization groupId body db)
  | getGroups =>
    exact Or.inl (by cases hf1 : env.fault1 <;> simp [handle, getGroups, hf1, withFault])

/-- Serving requests keeps emails and usernames unique. -/
theorem serve_users_unique (lib : Lib) (reqs : List (Env × Request)) (db : Db)
    (huniq : db.users.Pairwise (fun a b => a.email ≠ b.email ∧ a.username ≠ b.username)) :
    (serve lib reqs db).2.users.Pairwise
      (fun a b => a.email ≠ b.email ∧ a.username ≠ b.username) := by
  induction reqs generalizing db with
  | nil => simpa [serve] using huniq
  | cons first rest ih =>
    obtain ⟨env, req⟩ := first
    have hstep : (handle lib env req db).db.users.Pairwise
        (fun a b => a.email ≠ b.email ∧ a.username ≠ b.username) := by
      rcases handle_users lib env req db with h | ⟨row, h, hnew⟩
      · rw [h]; exact huniq
      · rw [h, List.pairwise_append]
        refine ⟨huniq, List.pairwise_singleton _ _, ?_⟩
        intro a ha b hb
        rw [List.mem_singleton.mp hb]
        exact hnew a ha
    simpa [serve] using ih (handle lib env req db).db hstep

/-- The startup block leaves `users` empty on the fresh store: the two sample
users have no email and no password, so their rows are skipped. -/
theorem bootstrap_users (now : String) : (bootstrap now Db.empty).users = [] := by
  simp [bootstrap, createTables, orIgnore, Db.raiseSeq, Db.insertGroup, Db.insertUser, Db.empty,
    nextId,
    insertSample, sampleMessages, Db.insertMessage]

/-- C11: in every store reached from the store after startup by serving any
sequence of requests (register, login, post, and the other routes as well),
whatever the surroundings of each request, no two user rows have the same email
and no two have the same username. -/
theorem users_unique_reachable (lib : Lib) (now : String) (reqs : List (Env × Request)) :
    (serve lib reqs (bootstrap now Db.empty)).2.users.Pairwise
      (fun a b => a.email ≠ b.email ∧ a.username ≠ b.username) := by
  apply serve_users_unique
  rw [bootstrap_users]
  exact List.Pairwise.nil

/-! ## The client: sending a message -/

/-- While a send is awaited, no event on the input row changes the state or
issues a POST. -/
theorem uiAll_sending (c : ChatState) (events : List UiEvent) (hsending : c.sending = true) :
    uiAll c events = (c, []) := by
  induction events with
  | nil => rfl
  | cons e rest ih =>
    have hstep : ui c e = (c, none) := by
      cases e <;> simp [ui, hsending]
    simp [uiAll, hstep, ih]

/-- A submit of non-blank text while no send is awaited passes the guard: the
input is cleared, the flag is set, the list is untouched and the POST carries
the text. -/
theorem sendMessageStart_accepted (c : ChatState) (hblank : trimIsEmpty c.newMessage = false)
    (hidle : c.sending = false) :
    sendMessageStart c = ({ c with sending := true, newMessage := "" }, some c.newMessage) := by
  simp [sendMessageStart, hblank, hidle]

/-- When the send of a non-blank text fails with a status other than 401, or
with none, then at the end of `sendMessage` the input holds the text as it was
typed, character for character, the list is the one before the submit and the
flag is off, whatever was tried on the input row in between. -/
theorem sendMessage_failure_restores (c : ChatState) (events : List UiEvent)
    (status : Option Nat) (hblank : trimIsEmpty c.newMessage = false)
    (hidle : c.sending = false) (hstatus : status ≠ some 401) :
    (sendMessage events (.rejected status) c).newMessage = c.newMessage ∧
      (sendMessage events (.rejected status) c).messages = c.messages ∧
      (sendMessage events (.rejected status) c).sending = false := by
  have hrun : sendMessage events (.rejected status) c
      = sendMessageFinish c.newMessage (.rejected status)
          { c with sending := true, newMessage := "" } := by
    simp [sendMessage, sendMessageStart_accepted c hblank hidle, uiAll_sending]
  rw [hrun]
  simp [sendMessageFinish, hstatus]

/-- C12 fails on the code at a 401: the text ` hi ` is composed and sent, the
POST is rejected with status 401, the `catch` puts the text back and then logs
out and navigates to `/login`, which unmounts the component: at the end the
session is over, the route is `/login`, and the text and the list are gone.
After a 500, or without any response, the text is back in the input and the
list is as before. -/
theorem sendMessage_401_discards_text :
    trimIsEmpty demoChat.newMessage = false ∧ demoChat.sending = false ∧
      (sendMessage [] (.rejected (some 401)) demoChat).newMessage = "" ∧
      (sendMessage [] (.rejected (some 401)) demoChat).messages = [] ∧
      (sendMessage [] (.rejected (some 401)) demoChat).path = "/login" ∧
      (sendMessage [] (.rejected (some 401)) demoChat).loggedIn = false ∧
      (sendMessage [] (.rejected (some 500)) demoChat).newMessage = " hi " ∧
      (sendMessage [] (.rejected (some 500)) demoChat).messages = demoChat.messages ∧
      (sendMessage [] (.rejected none) demoChat).newMessage = " hi " :=
  ⟨by decide, rfl, by decide, rfl, by decide, by decide, by decide, rfl, by decide⟩

/-- C13, as stated, fails: right after the submit of `hi` on an empty list the
POST is out and the input is empty, but the list is still empty: it holds no
entry for `hi`. -/
theorem sendMessageStart_no_pending_entry :
    trimIsEmpty "hi" = false ∧
      (sendMessageStart ⟨[], "hi", false, true, "/chat"⟩).2 = some "hi" ∧
      (sendMessageStart ⟨[], "hi", false, true, "/chat"⟩).1.newMessage = "" ∧
      (sendMessageStart ⟨[], "hi", false, true, "/chat"⟩).1.messages = [] :=
  ⟨by decide, by decide, by decide, rfl⟩

/-- C13, amended: right after the submit of a non-blank text, before the server
has responded, the POST carrying the text is out, the input is empty and the
sending flag is on; the list is the one before the submit (the message enters
it only with the server's acknowledgement). -/
theorem sendMessageStart_clears_input (c : ChatState)
    (hblank : trimIsEmpty c.newMessage = false) (hidle : c.sending = false) :
    (sendMessageStart c).2 = some c.newMessage ∧ (sendMessageStart c).1.newMessage = "" ∧
      (sendMessageStart c).1.sending = true ∧ (sendMessageStart c).1.messages = c.messages := by
  rw [sendMessageStart_accepted c hblank hidle]
  exact ⟨rfl, rfl, rfl, rfl⟩

/-- C13, amended, at a concrete state. -/
theorem sendMessageStart_clears_input_witness :
    trimIsEmpty demoChat.newMessage = false ∧ demoChat.sending = false ∧
      (sendMessageStart demoChat).2 = some " hi " ∧ (sendMessageStart demoChat).1.newMessage = "" ∧
      (sendMessageStart demoChat).1.sending = true ∧
      (sendMessageStart demoChat).1.messages = demoChat.messages :=
  ⟨by decide, rfl, sendMessageStart_clears_input demoChat (by decide) rfl⟩

/-- C14, as stated, fails: once the send of ` hi ` is awaited, typing `again`,
clicking send and pressing Enter issue no POST; and `sendMessage` called with
non-blank text while the flag is on returns at its guard. -/
theorem second_submit_ignored :
    (sendMessageStart demoChat).2 = some " hi " ∧
      (uiAll (sendMessageStart demoChat).1 [.change "again", .clickSend, .pressEnter]).2 = [] ∧
      trimIsEmpty "again" = false ∧
      (sendMessageStart ⟨[], "again", true, true, "/chat"⟩).2 = none :=
  ⟨by decide, by decide, by decide, by decide⟩

/-- C14, amended: overlapping sends are not permitted. After a submit that
issued a POST, and until that send has finished, every sequence of events on
the input row leaves the state as it is and issues no POST, and `sendMessage`
itself returns at its guard; when the send has finished the flag is off again. -/
theorem no_overlapping_sends (c : ChatState) (events : List UiEvent) (result : PostResult)
    (hblank : trimIsEmpty c.newMessage = false) (hidle : c.sending = false) :
    (sendMessageStart c).2 = some c.newMessage ∧
      uiAll (sendMessageStart c).1 events = ((sendMessageStart c).1, []) ∧
      sendMessageStart (sendMessageStart c).1 = ((sendMessageStart c).1, none) ∧
      (sendMessage events result c).sending = false := by
  have hstart := sendMessageStart_accepted c hblank hidle
  refine ⟨by rw [hstart], ?_, ?_, ?_⟩
  · exact uiAll_sending _ events (by rw [hstart])
  · rw [hstart]
    simp [sendMessageStart]
  · simp [sendMessage, hstart, sendMessageFinish]

/-- C14, amended, at a concrete state. -/
theorem no_overlapping_sends_witness :
    trimIsEmpty demoChat.newMessage = false ∧ demoChat.sending = false ∧
      uiAll (sendMessageStart demoChat).1 [.change "again", .clickSend, .pressEnter]
        = ((sendMessageStart demoChat).1, []) :=
  ⟨by decide, rfl,
    (no_overlapping_sends demoChat [.change "again", .clickSend, .pressEnter]
      (.rejected none) (by decide) rfl).2.1⟩

/-- C15: when the send of a non-blank text is acknowledged with the row `r`,
then at the end of `sendMessage` the list is the list before the submit
followed by `r` as the server sent it, one entry longer and with nothing else
added, the input is empty and the flag is off, whatever was tried on the input
row in between. -/
theorem sendMessage_acknowledged (c : ChatState) (events : List UiEvent) (r : Json)
    (hblank : trimIsEmpty c.newMessage = false) (hidle : c.sending = false) :
    (sendMessage events (.resolved r) c).messages = c.messages ++ [r] ∧
      (sendMessage events (.resolved r) c).messages.length = c.messages.length + 1 ∧
      (sendMessage events (.resolved r) c).newMessage = "" ∧
      (sendMessage events (.resolved r) c).sending = false := by
  have hrun : sendMessage events (.resolved r) c
      = sendMessageFinish c.newMessage (.resolved r)
          { c with sending := true, newMessage := "" } := by
    simp [sendMessage, sendMessageStart_accepted c hblank hidle, uiAll_sending]
  rw [hrun]
  simp [sendMessageFinish]

/-- C15, at a concrete run: the row the server created for ` hi `. -/
theorem sendMessage_acknowledged_witness :
    trimIsEmpty demoChat.newMessage = false ∧ demoChat.sending = false ∧
      (sendMessage [] (.resolved (MessageRow.toJson
          ⟨7, .int 1, some 7, some "alice", " hi ", "2026-01-01 10:00:00"⟩)) demoChat).messages
        = demoChat.messages ++ [MessageRow.toJson
          ⟨7, .int 1, some 7, some "alice", " hi ", "2026-01-01 10:00:00"⟩] :=
  ⟨by decide, rfl,
    (sendMessage_acknowledged demoChat [] (MessageRow.toJson
      ⟨7, .int 1, some 7, some "alice", " hi ", "2026-01-01 10:00:00"⟩) (by decide) rfl).1⟩

/-! ## Posting a message: what a failure leaves behind -/

/-- C16, as stated, fails: when the insert succeeds and the `SELECT` that reads
the new row back fails, the post is answered 500 and its row is in the table. -/
theorem postMessage_500_row_persisted :
    (postMessage demoLib (failingSecond "SQLITE_IOERR: disk I/O error") (some "alice") (.int 1)
        ⟨some "hi", []⟩ Db.empty).response.status = 500 ∧
      (postMessage demoLib (failingSecond "SQLITE_IOERR: disk I/O error") (some "alice") (.int 1)
        ⟨some "hi", []⟩ Db.empty).db.messages
        = [⟨1, .int 1, some 7, some "alice", "hi", "2026-01-01 10:00:00"⟩] ∧
      Db.empty.messages = [] := by
  decide

/-- C16, amended: a post that is not answered 201 leaves the store as it is,
unless its insert succeeded and only the `SELECT` that reads the new row back
failed: that post is answered 500 and has appended its row. So a post answered
400 or 401, and a post answered 500 on a failed insert, persist no row. -/
theorem postMessage_not_created (lib : Lib) (env : Env) (authorization : Option String)
    (groupId : SqlValue) (body : PostBody) (db : Db)
    (hstatus : (postMessage lib env authorization groupId body db).response.status ≠ 201) :
    ((postMessage lib env authorization groupId body db).db = db ∨
        (env.fault1 = none ∧ env.fault2.isSome = true ∧
          (postMessage lib env authorization groupId body db).response.status = 500 ∧
          (postMessage lib env authorization groupId body db).calls
            = [.insertMessage, .selectMessageById] ∧
          ∃ row : MessageRow,
            (postMessage lib env authorization groupId body db).db.messages
              = db.messages ++ [row])) ∧
      (env.fault2 = none → (postMessage lib env authorization groupId body db).db = db) ∧
      ((postMessage lib env authorization groupId body db).response.status ∈ [400, 401] →
        (postMessage lib env authorization groupId body db).db = db) := by
  cases hv : lib.verifyToken authorization with
  | none => simp [postMessage, authMiddleware, hv]
  | some p =>
    cases hm : body.message with
    | none => simp [postMessage, authMiddleware, hv, hm, isFalsy]
    | some m =>
      by_cases hempty : m = ""
      · simp [postMessage, authMiddleware, hv, hm, isFalsy, hempty]
      · cases hf1 : env.fault1 with
        | some e1 =>
          simp [postMessage, authMiddleware, hv, hm, isFalsy, hempty, hf1, withFault]
        | none =>
          cases hf2 : env.fault2 with
          | some e2 =>
            simp [postMessage, authMiddleware, hv, hm, isFalsy, hempty, hf1, hf2, withFault,
              Db.insertMessage]
          | none =>
            simp [postMessage, authMiddleware, hv, hm, isFalsy, hempty, hf1, hf2, withFault,
              Db.insertMessage] at hstatus

/-- C16, amended, at concrete requests: a failed insert is answered 500 and
leaves the fresh store as it is. -/
theorem postMessage_not_created_witness :
    (postMessage demoLib (failing "SQLITE_BUSY: database is locked") (some "alice") (.int 1)
        ⟨some "hi", []⟩ Db.empty).response.status ≠ 201 ∧
      (postMessage demoLib (failing "SQLITE_BUSY: database is locked") (some "alice") (.int 1)
        ⟨some "hi", []⟩ Db.empty).db = Db.empty :=
  have hstatus : (postMessage demoLib (failing "SQLITE_BUSY: database is locked")
      (some "alice") (.int 1) ⟨some "hi", []⟩ Db.empty).response.status ≠ 201 := by decide
  ⟨hstatus,
    (postMessage_not_created demoLib (failing "SQLITE_BUSY: database is locked") (some "alice")
      (.int 1) ⟨some "hi", []⟩ Db.empty hstatus).2.1 rfl⟩

end Chat
